import Mathlib

/-
  Shallow embedding of the stand-reservation conflict-resolution engine of
  the hvp_v3 repository (apps/api/src/routes/planning/reservations.ts,
  Prisma schema for MaintenanceEvent / StandReservation / HangarLayout /
  MaintenanceEventAudit).

  Modelling conventions:
  * Ids (uuid strings) are modelled as `Nat`; timestamps (`Date`) as `Int`
    (a Date is a single millisecond timestamp; `toISOString` equality
    coincides with timestamp equality, `<`/`>` with numeric comparison).
  * The database is a `State` record: lists of events, reservations,
    layouts and audit records.  Prisma queries/mutations become list
    operations: `findUnique` is `List.find?`, `findMany` is `List.filter`,
    `upsert` keyed on the unique `eventId` column replaces in place or
    appends, `deleteMany` filters out, `update`/`updateMany` map over rows.
  * The PUT /by-event handler runs each await against the store directly
    (it uses no transaction), so it is modelled as a function that returns
    the store as committed so far even when it throws.  dnd-move and
    dnd-place run inside `prisma.$transaction`, so their wrappers restore
    the original state on any error.
  * The request-layer zod validation that matters to the claims
    (`endAt > startAt` refine on dnd-place, `changeReason` trimmed
    non-empty when present) is part of the embedding; rbac permission
    checking lives outside the modelled core, but the inline
    ADMIN/PLANNER role check of the dnd handlers is kept.
  * Audit `changes` JSON blobs are modelled as one constructor per literal
    object shape occurring in the source, with explicit `null` fields kept
    as `Option` fields.
-/

namespace HVP

/-- Prisma enum `EventStatus`. -/
inductive EventStatus where
  | DRAFT
  | PLANNED
  | CONFIRMED
  | IN_PROGRESS
  | DONE
  | CANCELLED
deriving DecidableEq, Repr

/-- Prisma enum `EventAuditAction`. -/
inductive EventAuditAction where
  | CREATE
  | UPDATE
  | RESERVE
  | UNRESERVE
deriving DecidableEq, Repr

/-- The fields of `MaintenanceEvent` relevant to the reservation engine. -/
structure MaintenanceEvent where
  id : Nat
  status : EventStatus
  startAt : Int
  endAt : Int
  hangarId : Option Nat
  layoutId : Option Nat
deriving DecidableEq, Repr

/-- A `StandReservation` row; the table has a unique index on `eventId`. -/
structure StandReservation where
  eventId : Nat
  layoutId : Nat
  standId : Nat
  startAt : Int
  endAt : Int
deriving DecidableEq, Repr

/-- A `HangarLayout` row (only the columns the handlers select). -/
structure HangarLayout where
  id : Nat
  hangarId : Nat
deriving DecidableEq, Repr

/-- The reservation object serialized into audit payloads
(`layoutId/standId/startAt.toISOString()/endAt.toISOString()`). -/
structure ResSnapshot where
  layoutId : Nat
  standId : Nat
  startAt : Int
  endAt : Int
deriving DecidableEq, Repr

/-- The `prev`/`to` object of the dnd-place audit payload. -/
structure PlaceSnapshot where
  startAt : Int
  endAt : Int
  hangarId : Option Nat
  layoutId : Option Nat
  reservation : Option ResSnapshot
deriving DecidableEq, Repr

/-- The `changes` JSON payloads written by reservations.ts, one constructor
per literal object shape at each `maintenanceEventAudit.create` call site. -/
inductive AuditChanges where
  | reserveAssign (rfrom : Option ResSnapshot) (rto : ResSnapshot)
  | dndBumped (bumpedByEventId : Nat) (reservationTo : Option ResSnapshot)
      (statusTo : EventStatus) (hangarIdTo : Option Nat) (layoutIdTo : Option Nat)
  | dndMoveReserve (bumpOnConflict : Bool) (bumpedEventIds : List Nat)
      (rfrom : Option ResSnapshot) (rto : ResSnapshot)
  | dndPlaceUpdate (bumpOnConflict : Bool) (bumpedEventIds : List Nat)
      (pfrom : PlaceSnapshot) (pto : PlaceSnapshot)
  | unreserve (rfrom : ResSnapshot) (rto : Option ResSnapshot)
deriving DecidableEq, Repr

/-- Every reservation snapshot appearing anywhere in an audit payload
(used to express "the payload records the prior placement"). -/
def AuditChanges.resSnapshots : AuditChanges → List ResSnapshot
  | .reserveAssign rfrom rto => rfrom.toList ++ [rto]
  | .dndBumped _ reservationTo _ _ _ => reservationTo.toList
  | .dndMoveReserve _ _ rfrom rto => rfrom.toList ++ [rto]
  | .dndPlaceUpdate _ _ pfrom pto => pfrom.reservation.toList ++ pto.reservation.toList
  | .unreserve rfrom rto => rfrom :: rto.toList

/-- A `MaintenanceEventAudit` row. -/
structure AuditRecord where
  eventId : Nat
  action : EventAuditAction
  actor : String
  reason : Option String
  changes : AuditChanges
deriving DecidableEq, Repr

/-- The database state the reservation engine reads and writes. -/
structure State where
  events : List MaintenanceEvent
  reservations : List StandReservation
  layouts : List HangarLayout
  audits : List AuditRecord
deriving DecidableEq, Repr

/-- Error taxonomy of the handlers (httpErrors / thrown errors). -/
inductive ApiError where
  | notFound
  | validationError (msg : String)
  | conflictError
  | forbidden
deriving DecidableEq, Repr

/-- `maintenanceEvent.findUnique` by id. -/
def findEvent (s : State) (eid : Nat) : Option MaintenanceEvent :=
  s.events.find? (fun e => e.id == eid)

/-- `hangarLayout.findUnique` by id. -/
def findLayout (s : State) (lid : Nat) : Option HangarLayout :=
  s.layouts.find? (fun l => l.id == lid)

/-- `standReservation.findUnique` on the unique `eventId` key. -/
def findReservationByEvent (s : State) (eid : Nat) : Option StandReservation :=
  s.reservations.find? (fun r => r.eventId == eid)

/-- The relation filter `event: \x7b status: \x7b not: CANCELLED \x7d \x7d`:
the owning event exists (enforced by the foreign key) and is not CANCELLED. -/
def activeAt (s : State) (eid : Nat) : Bool :=
  match findEvent s eid with
  | some e => e.status != EventStatus.CANCELLED
  | none => false

/-- The conflict `where` clause shared by the PUT /by-event check and the
bump-all branches of dnd-move / dnd-place: same stand, different owning
event, half-open interval overlap, owning event not CANCELLED. -/
def conflictWhere (s : State) (standId excludeEventId : Nat) (startAt endAt : Int)
    (r : StandReservation) : Bool :=
  r.standId == standId && r.eventId != excludeEventId &&
    decide (r.startAt < endAt) && decide (r.endAt > startAt) && activeAt s r.eventId

/-- The conflict `where` clause of the `bumpedEventId` branches of
dnd-move / dnd-place: same stand, owning event EQUAL to the supplied
bumpedEventId, half-open overlap, owning event not CANCELLED. -/
def conflictWhereBumped (s : State) (standId bumpedEventId : Nat) (startAt endAt : Int)
    (r : StandReservation) : Bool :=
  r.standId == standId && r.eventId == bumpedEventId &&
    decide (r.startAt < endAt) && decide (r.endAt > startAt) && activeAt s r.eventId

/-- `standReservation.findMany` computing the dnd conflicts; the caller
supplies the window, and the filter depends on whether a specific
`bumpedEventId` was given. -/
def dndConflicts (s : State) (standId movingEventId : Nat) (bumpedEventId : Option Nat)
    (startAt endAt : Int) : List StandReservation :=
  match bumpedEventId with
  | some bid => s.reservations.filter (conflictWhereBumped s standId bid startAt endAt)
  | none => s.reservations.filter (conflictWhere s standId movingEventId startAt endAt)

/-- `standReservation.upsert` on the unique `eventId` key: update the
existing row in place, or create a new row. -/
def replaceOrAppend (rows : List StandReservation) (nr : StandReservation) :
    List StandReservation :=
  if rows.any (fun r => r.eventId == nr.eventId) then
    rows.map (fun r => if r.eventId == nr.eventId then nr else r)
  else rows ++ [nr]

/-- The row update of `maintenanceEvent.update` setting the denormalized
layout/hangar pointers of one event. -/
def ptrTransform (eid : Nat) (lay hang : Option Nat) (e : MaintenanceEvent) :
    MaintenanceEvent :=
  if e.id == eid then { e with layoutId := lay, hangarId := hang } else e

/-- `maintenanceEvent.update` setting the denormalized layout/hangar pointers. -/
def setEventPointers (s : State) (eid : Nat) (lay hang : Option Nat) : State :=
  { s with events := s.events.map (ptrTransform eid lay hang) }

/-- The row update of dnd-place's `maintenanceEvent.update`: new window
plus the denormalized pointers, for the moved event. -/
def placeTransform (eid : Nat) (ws we : Int) (lay hang : Option Nat)
    (e : MaintenanceEvent) : MaintenanceEvent :=
  if e.id == eid then
    { e with startAt := ws, endAt := we, layoutId := lay, hangarId := hang }
  else e

/-- `maintenanceEventAudit.create`. -/
def appendAudit (s : State) (a : AuditRecord) : State :=
  { s with audits := s.audits ++ [a] }

/-- The audit serialization of a reservation row. -/
def resSnapshot (r : StandReservation) : ResSnapshot :=
  ⟨r.layoutId, r.standId, r.startAt, r.endAt⟩

/-- The request-context inputs of `getActor`: `req.auth?.email` and the
`x-actor` / `x-user` headers.  A `some ""` models a present but empty
value (falsy for the `auth?.email` truthiness test, but kept by the
nullish coalescing over the headers). -/
structure ActorCtx where
  authEmail : Option String
  xActor : Option String
  xUser : Option String
deriving DecidableEq, Repr

/-- JavaScript `String.prototype.slice(0, 80)`. -/
def slice80 (x : String) : String :=
  String.mk (x.data.take 80)

/-- `getActor` of reservations.ts: the authenticated email when truthy,
else `x-actor ?? x-user ?? "browser"`, always sliced to 80 characters. -/
def getActor (ctx : ActorCtx) : String :=
  match ctx.authEmail with
  | some e =>
      if e = "" then slice80 ((ctx.xActor.getD (ctx.xUser.getD "browser")))
      else slice80 e
  | none => slice80 ((ctx.xActor.getD (ctx.xUser.getD "browser")))

/-- Body of PUT /planning/reservations/by-event/:eventId (zod-parsed).
`changeReason` is `some r` only for a non-empty trimmed string (zod
`min(1)`), `none` when absent. -/
structure AssignReq where
  eventId : Nat
  layoutId : Nat
  standId : Nat
  startAt : Option Int
  endAt : Option Int
  changeReason : Option String
deriving DecidableEq, Repr

/-- PUT /by-event/:eventId.  The handler runs each Prisma call directly
against the store (no `$transaction`), so the returned `State` is the
store as committed at the moment the handler returns or throws: the
missing-changeReason error is thrown only after the reservation upsert
and the event pointer update have already been written. -/
def assignReservation (s : State) (ctx : ActorCtx) (req : AssignReq) :
    Except ApiError StandReservation × State :=
  match findEvent s req.eventId with
  | none => (Except.error ApiError.notFound, s)
  | some event =>
    let existingReservation := findReservationByEvent s req.eventId
    let startAt := req.startAt.getD event.startAt
    let endAt := req.endAt.getD event.endAt
    if endAt ≤ startAt then
      (Except.error (ApiError.validationError "endAt must be after startAt"), s)
    else if (s.reservations.find? (conflictWhere s req.standId req.eventId startAt endAt)).isSome then
      (Except.error ApiError.conflictError, s)
    else
      match findLayout s req.layoutId with
      | none => (Except.error ApiError.notFound, s)
      | some layout =>
        let reservation : StandReservation :=
          ⟨req.eventId, req.layoutId, req.standId, startAt, endAt⟩
        let s1 : State := { s with reservations := replaceOrAppend s.reservations reservation }
        let s2 : State := setEventPointers s1 req.eventId (some layout.id) (some layout.hangarId)
        let changed : Bool :=
          match existingReservation with
          | none => true
          | some ex =>
              ex.layoutId != reservation.layoutId || ex.standId != reservation.standId ||
                ex.startAt != reservation.startAt || ex.endAt != reservation.endAt
        if changed && req.changeReason.isNone then
          (Except.error (ApiError.validationError "changeReason is required when changing reservation"), s2)
        else
          let auditRec : AuditRecord :=
            { eventId := req.eventId
              action := EventAuditAction.RESERVE
              actor := getActor ctx
              reason :=
                match req.changeReason with
                | some r => some r
                | none =>
                    match existingReservation with
                    | some _ => none
                    | none => some "Первичное назначение места"
              changes := AuditChanges.reserveAssign (existingReservation.map resSnapshot)
                (resSnapshot reservation) }
          (Except.ok reservation, appendAudit s2 auditRec)

/-- The per-displaced-event audit record of the bump blocks (action
UPDATE, `dnd` payload with `bumpedByEventId` and the cleared new state). -/
def bumpAuditRecord (ctx : ActorCtx) (bumpedEventId movingEventId : Nat)
    (reason : String) : AuditRecord :=
  { eventId := bumpedEventId
    action := EventAuditAction.UPDATE
    actor := getActor ctx
    reason := some reason
    changes := AuditChanges.dndBumped movingEventId none EventStatus.DRAFT none none }

/-- The row update of the bump block's `maintenanceEvent.updateMany`:
null the hangar/layout pointers and force status DRAFT for bumped events. -/
def bumpTransform (toBump : List Nat) (e : MaintenanceEvent) : MaintenanceEvent :=
  if toBump.contains e.id then
    { e with hangarId := none, layoutId := none, status := EventStatus.DRAFT }
  else e

/-- The bump block shared by dnd-move and dnd-place: delete the
conflicting events' reservations, null their hangar/layout pointers and
force status DRAFT, then write one audit record per displaced event. -/
def applyBump (s : State) (ctx : ActorCtx) (toBump : List Nat) (movingEventId : Nat)
    (reason : String) : State :=
  let s1 : State :=
    { s with reservations := s.reservations.filter (fun r => !(toBump.contains r.eventId)) }
  let s2 : State :=
    { s1 with events := s1.events.map (bumpTransform toBump) }
  { s2 with audits := s2.audits ++ toBump.map (fun b => bumpAuditRecord ctx b movingEventId reason) }

/-- Body of POST /planning/reservations/dnd-move. -/
structure DndMoveReq where
  eventId : Nat
  layoutId : Nat
  standId : Nat
  bumpOnConflict : Option Bool
  bumpedEventId : Option Nat
  changeReason : String
deriving DecidableEq, Repr

/-- The `$transaction` body of dnd-move; an error rolls the whole thing
back, so it returns the post-state only on success. -/
def dndMoveTx (s : State) (ctx : ActorCtx) (req : DndMoveReq) :
    Except ApiError (StandReservation × List Nat × State) :=
  match findEvent s req.eventId with
  | none => Except.error ApiError.notFound
  | some event =>
    match findLayout s req.layoutId with
    | none => Except.error ApiError.notFound
    | some layout =>
      let startAt := event.startAt
      let endAt := event.endAt
      let conflicts := dndConflicts s req.standId req.eventId req.bumpedEventId startAt endAt
      let bump := req.bumpOnConflict.getD false
      if conflicts.length > 0 && !bump then Except.error ApiError.conflictError
      else
        let bumpedEventIds : List Nat :=
          if conflicts.length > 0 && bump then conflicts.map (fun c => c.eventId) else []
        let sB : State :=
          if conflicts.length > 0 && bump then
            applyBump s ctx (conflicts.map (fun c => c.eventId)) req.eventId req.changeReason
          else s
        let existingReservation := findReservationByEvent s req.eventId
        let reservation : StandReservation :=
          ⟨req.eventId, req.layoutId, req.standId, startAt, endAt⟩
        let s1 : State := { sB with reservations := replaceOrAppend sB.reservations reservation }
        let s2 : State := setEventPointers s1 req.eventId (some layout.id) (some layout.hangarId)
        let auditRec : AuditRecord :=
          { eventId := req.eventId
            action := EventAuditAction.RESERVE
            actor := getActor ctx
            reason := some req.changeReason
            changes := AuditChanges.dndMoveReserve bump bumpedEventIds
              (existingReservation.map resSnapshot) (resSnapshot reservation) }
        Except.ok (reservation, bumpedEventIds, appendAudit s2 auditRec)

/-- POST /dnd-move: role gate, then the transaction; on any error the
original state is restored (`$transaction` rollback). -/
def dndMove (s : State) (ctx : ActorCtx) (roles : List String) (req : DndMoveReq) :
    Except ApiError (StandReservation × List Nat) × State :=
  if !(roles.contains "ADMIN" || roles.contains "PLANNER") then
    (Except.error ApiError.forbidden, s)
  else
    match dndMoveTx s ctx req with
    | Except.error e => (Except.error e, s)
    | Except.ok (r, b, s') => (Except.ok (r, b), s')

/-- Body of POST /planning/reservations/dnd-place (zod-parsed; the
`endAt > startAt` refine is checked by the wrapper before the transaction). -/
structure DndPlaceReq where
  eventId : Nat
  layoutId : Nat
  standId : Nat
  startAt : Int
  endAt : Int
  bumpOnConflict : Option Bool
  bumpedEventId : Option Nat
  changeReason : String
deriving DecidableEq, Repr

/-- The `$transaction` body of dnd-place: conflicts are computed against
the NEW supplied window; the event's own startAt/endAt are updated
together with its pointers, then the reservation is upserted with the
same window, then one UPDATE audit for the moved event. -/
def dndPlaceTx (s : State) (ctx : ActorCtx) (req : DndPlaceReq) :
    Except ApiError (StandReservation × List Nat × State) :=
  match findEvent s req.eventId with
  | none => Except.error ApiError.notFound
  | some event =>
    match findLayout s req.layoutId with
    | none => Except.error ApiError.notFound
    | some layout =>
      let conflicts := dndConflicts s req.standId req.eventId req.bumpedEventId req.startAt req.endAt
      let bump := req.bumpOnConflict.getD false
      if conflicts.length > 0 && !bump then Except.error ApiError.conflictError
      else
        let bumpedEventIds : List Nat :=
          if conflicts.length > 0 && bump then conflicts.map (fun c => c.eventId) else []
        let sB : State :=
          if conflicts.length > 0 && bump then
            applyBump s ctx (conflicts.map (fun c => c.eventId)) req.eventId req.changeReason
          else s
        let prev : PlaceSnapshot :=
          { startAt := event.startAt
            endAt := event.endAt
            hangarId := event.hangarId
            layoutId := event.layoutId
            reservation := (findReservationByEvent s req.eventId).map resSnapshot }
        let s1 : State :=
          { sB with events := sB.events.map (placeTransform req.eventId req.startAt
              req.endAt (some layout.id) (some layout.hangarId)) }
        let reservation : StandReservation :=
          ⟨req.eventId, req.layoutId, req.standId, req.startAt, req.endAt⟩
        let s2 : State := { s1 with reservations := replaceOrAppend s1.reservations reservation }
        let auditRec : AuditRecord :=
          { eventId := req.eventId
            action := EventAuditAction.UPDATE
            actor := getActor ctx
            reason := some req.changeReason
            changes := AuditChanges.dndPlaceUpdate bump bumpedEventIds prev
              { startAt := req.startAt
                endAt := req.endAt
                hangarId := some layout.hangarId
                layoutId := some layout.id
                reservation := some (resSnapshot reservation) } }
        Except.ok (reservation, bumpedEventIds, appendAudit s2 auditRec)

/-- POST /dnd-place: role gate, the zod `endAt > startAt` refine, then the
transaction with rollback on error. -/
def dndPlace (s : State) (ctx : ActorCtx) (roles : List String) (req : DndPlaceReq) :
    Except ApiError (StandReservation × List Nat) × State :=
  if !(roles.contains "ADMIN" || roles.contains "PLANNER") then
    (Except.error ApiError.forbidden, s)
  else if req.endAt ≤ req.startAt then
    (Except.error (ApiError.validationError "endAt must be after startAt"), s)
  else
    match dndPlaceTx s ctx req with
    | Except.error e => (Except.error e, s)
    | Except.ok (r, b, s') => (Except.ok (r, b), s')

/-- Result of DELETE /by-event/:eventId. -/
structure UnassignResult where
  deleted : Nat
deriving DecidableEq, Repr

/-- DELETE /by-event/:eventId: idempotent; when no reservation exists it
returns zero deletions and writes nothing; otherwise it deletes the
reservation and writes one UNRESERVE audit record with the prior
placement and a null `to`.  The event row itself is not touched. -/
def unassignReservation (s : State) (ctx : ActorCtx) (eventId : Nat) :
    UnassignResult × State :=
  match findReservationByEvent s eventId with
  | none => ({ deleted := 0 }, s)
  | some existing =>
    let delCount := (s.reservations.filter (fun r => r.eventId == eventId)).length
    let s1 : State :=
      { s with reservations := s.reservations.filter (fun r => !(r.eventId == eventId)) }
    let auditRec : AuditRecord :=
      { eventId := eventId
        action := EventAuditAction.UNRESERVE
        actor := getActor ctx
        reason := some "Снятие резерва"
        changes := AuditChanges.unreserve (resSnapshot existing) none }
    ({ deleted := delCount }, appendAudit s1 auditRec)

/-- The structural guarantee of the `StandReservation_eventId_key` unique
index: at most one reservation row per event. -/
def keyUnique (s : State) : Prop :=
  s.reservations.Pairwise (fun a b => a.eventId ≠ b.eventId)

/-- The central invariant: on any one stand, reservations owned by
non-cancelled events have pairwise non-overlapping half-open windows. -/
def NoOverlap (s : State) : Prop :=
  ∀ r1 ∈ s.reservations, ∀ r2 ∈ s.reservations,
    r1.eventId ≠ r2.eventId → r1.standId = r2.standId →
    activeAt s r1.eventId = true → activeAt s r2.eventId = true →
    ¬(r1.startAt < r2.endAt ∧ r2.startAt < r1.endAt)

instance (s : State) : Decidable (keyUnique s) := by
  unfold keyUnique
  infer_instance

instance (s : State) : Decidable (NoOverlap s) :=
  inferInstanceAs (Decidable (∀ r1 ∈ s.reservations, ∀ r2 ∈ s.reservations,
    r1.eventId ≠ r2.eventId → r1.standId = r2.standId →
    activeAt s r1.eventId = true → activeAt s r2.eventId = true →
    ¬(r1.startAt < r2.endAt ∧ r2.startAt < r1.endAt)))

/-- States reachable from a state satisfying the schema's unique-key
constraint by any sequence of the placement operations. -/
inductive Reachable : State → Prop where
  | init (s : State) (h : keyUnique s) : Reachable s
  | assign (s : State) (ctx : ActorCtx) (req : AssignReq) (h : Reachable s) :
      Reachable (assignReservation s ctx req).2
  | move (s : State) (ctx : ActorCtx) (roles : List String) (req : DndMoveReq)
      (h : Reachable s) : Reachable (dndMove s ctx roles req).2
  | place (s : State) (ctx : ActorCtx) (roles : List String) (req : DndPlaceReq)
      (h : Reachable s) : Reachable (dndPlace s ctx roles req).2
  | unassign (s : State) (ctx : ActorCtx) (eid : Nat) (h : Reachable s) :
      Reachable (unassignReservation s ctx eid).2

/-- States reachable from a non-overlapping state by placement operations
whose dnd requests do NOT name a specific bumpedEventId. -/
inductive ReachableNB : State → Prop where
  | init (s : State) (h : NoOverlap s) : ReachableNB s
  | assign (s : State) (ctx : ActorCtx) (req : AssignReq) (h : ReachableNB s) :
      ReachableNB (assignReservation s ctx req).2
  | move (s : State) (ctx : ActorCtx) (roles : List String) (req : DndMoveReq)
      (hb : req.bumpedEventId = none) (h : ReachableNB s) :
      ReachableNB (dndMove s ctx roles req).2
  | place (s : State) (ctx : ActorCtx) (roles : List String) (req : DndPlaceReq)
      (hb : req.bumpedEventId = none) (h : ReachableNB s) :
      ReachableNB (dndPlace s ctx roles req).2
  | unassign (s : State) (ctx : ActorCtx) (eid : Nat) (h : ReachableNB s) :
      ReachableNB (unassignReservation s ctx eid).2

/-- Sample data for concrete runs: one layout (id 10, hangar 5), three
PLANNED events, event 1 holding a reservation on stand 100 over [0, 10). -/
def exLayout : HangarLayout := ⟨10, 5⟩

def exEvent1 : MaintenanceEvent := ⟨1, EventStatus.PLANNED, 0, 10, some 5, some 10⟩

def exEvent2 : MaintenanceEvent := ⟨2, EventStatus.PLANNED, 0, 10, none, none⟩

def exEvent3 : MaintenanceEvent := ⟨3, EventStatus.PLANNED, 20, 30, none, none⟩

def exRes1 : StandReservation := ⟨1, 10, 100, 0, 10⟩

def exState : State := ⟨[exEvent1, exEvent2, exEvent3], [exRes1], [exLayout], []⟩

def exCtx : ActorCtx := ⟨none, none, none⟩

/-- Sample request: first assignment of event 3 to stand 300 over [20,30). -/
def exAssignReq3 : AssignReq := ⟨3, 10, 300, some 20, some 30, some "r"⟩

def exRes3 : StandReservation := ⟨3, 10, 300, 20, 30⟩

/-- Sample request: bump-all dnd-move of event 2 onto stand 100. -/
def exMoveReq : DndMoveReq := ⟨2, 10, 100, some true, none, "mv"⟩

/-- Sample request: dnd-place of event 3 onto stand 300 over [40,50). -/
def exPlaceReq : DndPlaceReq := ⟨3, 10, 300, 40, 50, none, none, "rs"⟩

/-- The reservation row written by PUT /by-event (window defaulted from
the event). -/
def assignNewRes (req : AssignReq) (event : MaintenanceEvent) : StandReservation :=
  ⟨req.eventId, req.layoutId, req.standId,
    req.startAt.getD event.startAt, req.endAt.getD event.endAt⟩

/-- The store after the two writes of PUT /by-event (reservation upsert
and event pointer update) and before the audit insert. -/
def assignWriteState (s : State) (req : AssignReq) (event : MaintenanceEvent)
    (layout : HangarLayout) : State :=
  setEventPointers
    { s with reservations := replaceOrAppend s.reservations (assignNewRes req event) }
    req.eventId (some layout.id) (some layout.hangarId)

/-- The committed store of a successful dnd-move transaction. -/
def dndMovePost (s : State) (ctx : ActorCtx) (req : DndMoveReq)
    (event : MaintenanceEvent) (layout : HangarLayout) : State :=
  let conflicts := dndConflicts s req.standId req.eventId req.bumpedEventId
    event.startAt event.endAt
  let bump := req.bumpOnConflict.getD false
  let bumpedEventIds : List Nat :=
    if conflicts.length > 0 && bump then conflicts.map (fun c => c.eventId) else []
  let sB : State :=
    if conflicts.length > 0 && bump then
      applyBump s ctx (conflicts.map (fun c => c.eventId)) req.eventId req.changeReason
    else s
  let reservation : StandReservation :=
    ⟨req.eventId, req.layoutId, req.standId, event.startAt, event.endAt⟩
  appendAudit
    (setEventPointers { sB with reservations := replaceOrAppend sB.reservations reservation }
      req.eventId (some layout.id) (some layout.hangarId))
    { eventId := req.eventId
      action := EventAuditAction.RESERVE
      actor := getActor ctx
      reason := some req.changeReason
      changes := AuditChanges.dndMoveReserve bump bumpedEventIds
        ((findReservationByEvent s req.eventId).map resSnapshot) (resSnapshot reservation) }

/-- The committed store of a successful dnd-place transaction. -/
def dndPlacePost (s : State) (ctx : ActorCtx) (req : DndPlaceReq)
    (event : MaintenanceEvent) (layout : HangarLayout) : State :=
  let conflicts := dndConflicts s req.standId req.eventId req.bumpedEventId
    req.startAt req.endAt
  let bump := req.bumpOnConflict.getD false
  let bumpedEventIds : List Nat :=
    if conflicts.length > 0 && bump then conflicts.map (fun c => c.eventId) else []
  let sB : State :=
    if conflicts.length > 0 && bump then
      applyBump s ctx (conflicts.map (fun c => c.eventId)) req.eventId req.changeReason
    else s
  let prev : PlaceSnapshot :=
    { startAt := event.startAt
      endAt := event.endAt
      hangarId := event.hangarId
      layoutId := event.layoutId
      reservation := (findReservationByEvent s req.eventId).map resSnapshot }
  let s1 : State :=
    { sB with events := sB.events.map (placeTransform req.eventId req.startAt
        req.endAt (some layout.id) (some layout.hangarId)) }
  let reservation : StandReservation :=
    ⟨req.eventId, req.layoutId, req.standId, req.startAt, req.endAt⟩
  appendAudit { s1 with reservations := replaceOrAppend s1.reservations reservation }
    { eventId := req.eventId
      action := EventAuditAction.UPDATE
      actor := getActor ctx
      reason := some req.changeReason
      changes := AuditChanges.dndPlaceUpdate bump bumpedEventIds prev
        { startAt := req.startAt
          endAt := req.endAt
          hangarId := some layout.hangarId
          layoutId := some layout.id
          reservation := some (resSnapshot reservation) } }

theorem slice80_length (x : String) : (slice80 x).length ≤ 80 := by
  simp only [slice80, String.length]
  exact le_trans (le_of_eq (List.length_take _ _)) (min_le_left _ _)

theorem conflictWhere_eq_true_iff (s : State) (standId excl : Nat) (ws we : Int)
    (r : StandReservation) :
    conflictWhere s standId excl ws we r = true ↔
      (r.standId = standId ∧ r.eventId ≠ excl ∧ r.startAt < we ∧ r.endAt > ws ∧
        activeAt s r.eventId = true) := by
  simp [conflictWhere, and_assoc]

theorem activeAt_eq_true_iff (s : State) (eid : Nat) :
    activeAt s eid = true ↔
      ∃ e, findEvent s eid = some e ∧ e.status ≠ EventStatus.CANCELLED := by
  unfold activeAt
  cases h : findEvent s eid with
  | none => simp
  | some e => simp [h]

theorem mem_replaceOrAppend {rows : List StandReservation} {nr r : StandReservation}
    (h : r ∈ replaceOrAppend rows nr) :
    r = nr ∨ (r ∈ rows ∧ r.eventId ≠ nr.eventId) := by
  unfold replaceOrAppend at h
  split at h
  · rcases List.mem_map.mp h with ⟨x, hx, hfx⟩
    by_cases hid : (x.eventId == nr.eventId) = true
    · left
      rw [if_pos hid] at hfx
      exact hfx.symm
    · right
      rw [if_neg hid] at hfx
      subst hfx
      exact ⟨hx, by simpa using hid⟩
  · next hany =>
    rcases List.mem_append.mp h with hold | hnew
    · right
      have h2 : ∀ x ∈ rows, ¬x.eventId = nr.eventId := by simpa using hany
      exact ⟨hold, h2 r hold⟩
    · left
      simpa using hnew

theorem eventId_replaceOrAppend_map (nr x : StandReservation) :
    (if x.eventId == nr.eventId then nr else x).eventId = x.eventId := by
  by_cases h : (x.eventId == nr.eventId) = true
  · rw [if_pos h]
    exact (by simpa using h : x.eventId = nr.eventId).symm
  · rw [if_neg h]

theorem pairwise_replaceOrAppend {rows : List StandReservation} {nr : StandReservation}
    (h : rows.Pairwise (fun a b => a.eventId ≠ b.eventId)) :
    (replaceOrAppend rows nr).Pairwise (fun a b => a.eventId ≠ b.eventId) := by
  unfold replaceOrAppend
  split
  · exact h.map _ (fun a b hab => by
      rw [eventId_replaceOrAppend_map, eventId_replaceOrAppend_map]
      exact hab)
  · next hany =>
    rw [List.pairwise_append]
    refine ⟨h, List.pairwise_singleton _ _, ?_⟩
    intro a ha b hb
    have hb' : b = nr := by simpa using hb
    rw [hb']
    have h2 : ∀ x ∈ rows, ¬x.eventId = nr.eventId := by simpa using hany
    exact h2 a ha

theorem find?_id_map {l : List MaintenanceEvent} {f : MaintenanceEvent → MaintenanceEvent}
    (hf : ∀ e, (f e).id = e.id) (x : Nat) :
    (l.map f).find? (fun e => e.id == x) = ((l.find? (fun e => e.id == x)).map f) := by
  have hp : ((fun e : MaintenanceEvent => e.id == x) ∘ f) = (fun e => e.id == x) := by
    funext e
    simp [Function.comp, hf e]
  rw [List.find?_map, hp]

theorem findEvent_id {s : State} {x : Nat} {e : MaintenanceEvent}
    (h : findEvent s x = some e) : e.id = x := by
  have := List.find?_some h
  simpa using this

theorem findEvent_map_of_id {s : State} {f : MaintenanceEvent → MaintenanceEvent}
    (hf : ∀ e, (f e).id = e.id) (x : Nat) :
    findEvent { s with events := s.events.map f } x = (findEvent s x).map f := by
  unfold findEvent
  exact find?_id_map hf x

theorem activeAt_map_of_id_status {s : State} {f : MaintenanceEvent → MaintenanceEvent}
    (hf : ∀ e, (f e).id = e.id) (hst : ∀ e, (f e).status = e.status) (x : Nat) :
    activeAt { s with events := s.events.map f } x = activeAt s x := by
  unfold activeAt
  rw [findEvent_map_of_id hf]
  cases h : findEvent s x with
  | none => rfl
  | some e => simp [hst e]

theorem findEvent_congr {s t : State} (h : t.events = s.events) (x : Nat) :
    findEvent t x = findEvent s x := by
  unfold findEvent
  rw [h]

theorem activeAt_congr {s t : State} (h : t.events = s.events) (x : Nat) :
    activeAt t x = activeAt s x := by
  unfold activeAt
  rw [findEvent_congr h]

theorem activeAt_map_of_id_status_at {s : State} {f : MaintenanceEvent → MaintenanceEvent}
    (hf : ∀ e, (f e).id = e.id) (x : Nat)
    (hst : ∀ e, e.id = x → (f e).status = e.status) :
    activeAt { s with events := s.events.map f } x = activeAt s x := by
  unfold activeAt
  rw [findEvent_map_of_id hf]
  cases h : findEvent s x with
  | none => rfl
  | some e => simp [hst e (findEvent_id h)]

theorem find?_replaceOrAppend (rows : List StandReservation) (nr : StandReservation) :
    (replaceOrAppend rows nr).find? (fun r => r.eventId == nr.eventId) = some nr := by
  unfold replaceOrAppend
  split
  · next hany =>
    induction rows with
    | nil => simp at hany
    | cons a l ih =>
      by_cases ha : (a.eventId == nr.eventId) = true
      · simp [List.find?, ha]
      · have hany' : l.any (fun r => r.eventId == nr.eventId) = true := by
          rcases List.any_eq_true.mp hany with ⟨x, hx, hpx⟩
          rcases List.mem_cons.mp hx with rfl | hxl
          · exact absurd hpx ha
          · exact List.any_eq_true.mpr ⟨x, hxl, hpx⟩
        simpa [List.find?, ha, Bool.not_eq_true] using ih hany'
  · next hany =>
    have hnone : rows.find? (fun r => r.eventId == nr.eventId) = none := by
      rw [List.find?_eq_none]
      intro x hx
      have h2 : ∀ x ∈ rows, ¬x.eventId = nr.eventId := by simpa using hany
      simpa using h2 x hx
    rw [List.find?_append, hnone]
    simp

theorem find?_replaceOrAppend2 (rows : List StandReservation) (nr : StandReservation)
    (eid : Nat) (h : nr.eventId = eid) :
    (replaceOrAppend rows nr).find? (fun r => r.eventId == eid) = some nr := by
  rw [← h]
  exact find?_replaceOrAppend rows nr

theorem count_filter_eq_one {rows : List StandReservation} {eid : Nat}
    {r : StandReservation}
    (hk : rows.Pairwise (fun a b => a.eventId ≠ b.eventId))
    (hf : rows.find? (fun x => x.eventId == eid) = some r) :
    (rows.filter (fun x => x.eventId == eid)).length = 1 := by
  induction rows with
  | nil => simp at hf
  | cons a l ih =>
    by_cases ha : (a.eventId == eid) = true
    · have haeq : a.eventId = eid := by simpa using ha
      have hrest : l.filter (fun x => x.eventId == eid) = [] := by
        rw [List.filter_eq_nil_iff]
        intro b hb
        have := (List.pairwise_cons.mp hk).1 b hb
        simp only [beq_iff_eq]
        rw [haeq] at this
        exact fun hc => this hc.symm
      simp [List.filter, ha, hrest]
    · have hf' : l.find? (fun x => x.eventId == eid) = some r := by
        rw [List.find?_cons_of_neg] at hf
        · exact hf
        · simpa using ha
      have := ih (List.pairwise_cons.mp hk).2 hf'
      simp [List.filter, ha, this]

theorem assign_ok_inv {s : State} {ctx : ActorCtx} {req : AssignReq}
    {res : StandReservation} {s' : State}
    (h : assignReservation s ctx req = (Except.ok res, s')) :
    ∃ event, findEvent s req.eventId = some event ∧
    ∃ layout, findLayout s req.layoutId = some layout ∧
      res = assignNewRes req event ∧
      s.reservations.find? (conflictWhere s req.standId req.eventId res.startAt res.endAt) = none ∧
      ∃ rsn, s' = appendAudit (assignWriteState s req event layout)
          { eventId := req.eventId
            action := EventAuditAction.RESERVE
            actor := getActor ctx
            reason := rsn
            changes := AuditChanges.reserveAssign
              ((findReservationByEvent s req.eventId).map resSnapshot) (resSnapshot res) } := by
  unfold assignReservation at h
  cases hev : findEvent s req.eventId with
  | none =>
    rw [hev] at h
    simp at h
  | some event =>
    rw [hev] at h
    dsimp only at h
    by_cases hwin : req.endAt.getD event.endAt ≤ req.startAt.getD event.startAt
    · rw [if_pos hwin] at h
      simp at h
    · rw [if_neg hwin] at h
      by_cases hconf : (s.reservations.find? (conflictWhere s req.standId req.eventId
          (req.startAt.getD event.startAt) (req.endAt.getD event.endAt))).isSome = true
      · rw [if_pos hconf] at h
        simp at h
      · rw [if_neg hconf] at h
        cases hlay : findLayout s req.layoutId with
        | none =>
          rw [hlay] at h
          simp at h
        | some layout =>
          rw [hlay] at h
          dsimp only at h
          split at h
          · simp at h
          · rw [Prod.mk.injEq] at h
            obtain ⟨h1, h2⟩ := h
            injection h1 with h1
            subst h1
            subst h2
            have hnone : s.reservations.find? (conflictWhere s req.standId req.eventId
                (req.startAt.getD event.startAt) (req.endAt.getD event.endAt)) = none := by
              rw [← Option.not_isSome_iff_eq_none]
              simpa using hconf
            exact ⟨event, rfl, layout, rfl, rfl, hnone, _, rfl⟩

theorem assign_cases (s : State) (ctx : ActorCtx) (req : AssignReq) :
    (assignReservation s ctx req).2 = s ∨
    ∃ event layout,
      findEvent s req.eventId = some event ∧
      findLayout s req.layoutId = some layout ∧
      s.reservations.find? (conflictWhere s req.standId req.eventId
        (req.startAt.getD event.startAt) (req.endAt.getD event.endAt)) = none ∧
      ((assignReservation s ctx req).2 = assignWriteState s req event layout ∨
       ∃ a, a.actor = getActor ctx ∧ a.eventId = req.eventId ∧
         (assignReservation s ctx req).2 = appendAudit (assignWriteState s req event layout) a) := by
  unfold assignReservation
  cases hev : findEvent s req.eventId with
  | none => left; rfl
  | some event =>
    dsimp only
    by_cases hwin : req.endAt.getD event.endAt ≤ req.startAt.getD event.startAt
    · rw [if_pos hwin]
      left
      rfl
    · rw [if_neg hwin]
      by_cases hconf : (s.reservations.find? (conflictWhere s req.standId req.eventId
          (req.startAt.getD event.startAt) (req.endAt.getD event.endAt))).isSome = true
      · rw [if_pos hconf]
        left
        rfl
      · rw [if_neg hconf]
        cases hlay : findLayout s req.layoutId with
        | none => left; rfl
        | some layout =>
          dsimp only
          have hnone : s.reservations.find? (conflictWhere s req.standId req.eventId
              (req.startAt.getD event.startAt) (req.endAt.getD event.endAt)) = none := by
            rw [← Option.not_isSome_iff_eq_none]
            simpa using hconf
          right
          refine ⟨event, layout, rfl, rfl, hnone, ?_⟩
          split
          · left
            rfl
          · right
            exact ⟨_, rfl, rfl, rfl⟩

theorem dndMove_ok_inv {s : State} {ctx : ActorCtx} {roles : List String} {req : DndMoveReq}
    {res : StandReservation} {b : List Nat} {s' : State}
    (h : dndMove s ctx roles req = (Except.ok (res, b), s')) :
    ∃ event, findEvent s req.eventId = some event ∧
    ∃ layout, findLayout s req.layoutId = some layout ∧
      (let conflicts := dndConflicts s req.standId req.eventId req.bumpedEventId
        event.startAt event.endAt
      let bump := req.bumpOnConflict.getD false
      (conflicts.length > 0 && !bump) = false ∧
      res = ⟨req.eventId, req.layoutId, req.standId, event.startAt, event.endAt⟩ ∧
      b = (if conflicts.length > 0 && bump then conflicts.map (fun c => c.eventId) else []) ∧
      s' = dndMovePost s ctx req event layout) := by
  unfold dndMove dndMoveTx at h
  split at h
  · simp at h
  · cases hev : findEvent s req.eventId with
    | none =>
      rw [hev] at h
      simp at h
    | some event =>
      rw [hev] at h
      cases hlay : findLayout s req.layoutId with
      | none =>
        rw [hlay] at h
        simp at h
      | some layout =>
        rw [hlay] at h
        dsimp only at h
        by_cases hg : ((dndConflicts s req.standId req.eventId req.bumpedEventId
            event.startAt event.endAt).length > 0 && !(req.bumpOnConflict.getD false)) = true
        · rw [if_pos hg] at h
          simp at h
        · rw [if_neg hg] at h
          dsimp only at h
          rw [Prod.mk.injEq] at h
          obtain ⟨h1, h2⟩ := h
          injection h1 with h1
          rw [Prod.mk.injEq] at h1
          obtain ⟨hres, hb⟩ := h1
          refine ⟨event, rfl, layout, rfl, ?_⟩
          dsimp only
          exact ⟨by simpa using hg, hres.symm, hb.symm, h2.symm⟩

theorem dndMove_cases (s : State) (ctx : ActorCtx) (roles : List String) (req : DndMoveReq) :
    (dndMove s ctx roles req).2 = s ∨
    ∃ res b, dndMove s ctx roles req = (Except.ok (res, b), (dndMove s ctx roles req).2) := by
  unfold dndMove
  split
  · left
    rfl
  · cases htx : dndMoveTx s ctx req with
    | error e => left; rfl
    | ok t =>
      obtain ⟨r, bIds, st⟩ := t
      right
      exact ⟨r, bIds, rfl⟩

theorem dndPlace_ok_inv {s : State} {ctx : ActorCtx} {roles : List String} {req : DndPlaceReq}
    {res : StandReservation} {b : List Nat} {s' : State}
    (h : dndPlace s ctx roles req = (Except.ok (res, b), s')) :
    ¬req.endAt ≤ req.startAt ∧
    ∃ event, findEvent s req.eventId = some event ∧
    ∃ layout, findLayout s req.layoutId = some layout ∧
      (let conflicts := dndConflicts s req.standId req.eventId req.bumpedEventId
        req.startAt req.endAt
      let bump := req.bumpOnConflict.getD false
      (conflicts.length > 0 && !bump) = false ∧
      res = ⟨req.eventId, req.layoutId, req.standId, req.startAt, req.endAt⟩ ∧
      b = (if conflicts.length > 0 && bump then conflicts.map (fun c => c.eventId) else []) ∧
      s' = dndPlacePost s ctx req event layout) := by
  unfold dndPlace dndPlaceTx at h
  split at h
  · simp at h
  · split at h
    · simp at h
    · next hwin =>
      cases hev : findEvent s req.eventId with
      | none =>
        rw [hev] at h
        simp at h
      | some event =>
        rw [hev] at h
        cases hlay : findLayout s req.layoutId with
        | none =>
          rw [hlay] at h
          simp at h
        | some layout =>
          rw [hlay] at h
          dsimp only at h
          by_cases hg : ((dndConflicts s req.standId req.eventId req.bumpedEventId
              req.startAt req.endAt).length > 0 && !(req.bumpOnConflict.getD false)) = true
          · rw [if_pos hg] at h
            simp at h
          · rw [if_neg hg] at h
            dsimp only at h
            rw [Prod.mk.injEq] at h
            obtain ⟨h1, h2⟩ := h
            injection h1 with h1
            rw [Prod.mk.injEq] at h1
            obtain ⟨hres, hb⟩ := h1
            refine ⟨hwin, event, rfl, layout, rfl, ?_⟩
            dsimp only
            exact ⟨by simpa using hg, hres.symm, hb.symm, h2.symm⟩

theorem activeAt_appendAudit (s : State) (a : AuditRecord) (x : Nat) :
    activeAt (appendAudit s a) x = activeAt s x :=
  activeAt_congr rfl x

theorem ptrTransform_id (eid : Nat) (lay hang : Option Nat) (e : MaintenanceEvent) :
    (ptrTransform eid lay hang e).id = e.id := by
  unfold ptrTransform
  split <;> rfl

theorem ptrTransform_status (eid : Nat) (lay hang : Option Nat) (e : MaintenanceEvent) :
    (ptrTransform eid lay hang e).status = e.status := by
  unfold ptrTransform
  split <;> rfl

theorem activeAt_setEventPointers (s : State) (eid : Nat) (lay hang : Option Nat) (x : Nat) :
    activeAt (setEventPointers s eid lay hang) x = activeAt s x := by
  unfold setEventPointers
  exact activeAt_map_of_id_status (ptrTransform_id eid lay hang)
    (ptrTransform_status eid lay hang) x

theorem findEvent_setEventPointers (s : State) (eid : Nat) (lay hang : Option Nat) (x : Nat) :
    findEvent (setEventPointers s eid lay hang) x
      = (findEvent s x).map (ptrTransform eid lay hang) := by
  unfold setEventPointers
  exact findEvent_map_of_id (ptrTransform_id eid lay hang) x

theorem applyBump_reservations (s : State) (ctx : ActorCtx) (toBump : List Nat)
    (mid : Nat) (reason : String) :
    (applyBump s ctx toBump mid reason).reservations
      = s.reservations.filter (fun r => !(toBump.contains r.eventId)) := rfl

theorem bumpTransform_id (toBump : List Nat) (e : MaintenanceEvent) :
    (bumpTransform toBump e).id = e.id := by
  unfold bumpTransform
  split <;> rfl

theorem bumpTransform_of_not_mem (toBump : List Nat) (e : MaintenanceEvent)
    (h : toBump.contains e.id = false) : bumpTransform toBump e = e := by
  unfold bumpTransform
  rw [h]
  rfl

theorem findEvent_applyBump (s : State) (ctx : ActorCtx) (toBump : List Nat)
    (mid : Nat) (reason : String) (x : Nat) :
    findEvent (applyBump s ctx toBump mid reason) x
      = (findEvent s x).map (bumpTransform toBump) := by
  have h1 : findEvent (applyBump s ctx toBump mid reason) x
      = findEvent { s with events := s.events.map (bumpTransform toBump) } x :=
    findEvent_congr rfl x
  rw [h1, findEvent_map_of_id (bumpTransform_id toBump)]

theorem activeAt_applyBump_not (s : State) (ctx : ActorCtx) (toBump : List Nat)
    (mid : Nat) (reason : String) (x : Nat) (hx : toBump.contains x = false) :
    activeAt (applyBump s ctx toBump mid reason) x = activeAt s x := by
  unfold activeAt
  rw [findEvent_applyBump]
  cases h : findEvent s x with
  | none => rfl
  | some e =>
    have he : bumpTransform toBump e = e :=
      bumpTransform_of_not_mem toBump e (by rw [findEvent_id h]; exact hx)
    simp [he]

theorem conflictWhere_false_elim {s : State} {standId excl : Nat} {ws we : Int}
    {r : StandReservation}
    (hf : conflictWhere s standId excl ws we r = false)
    (hs : r.standId = standId) (hne : r.eventId ≠ excl)
    (ha : activeAt s r.eventId = true) :
    ¬(r.startAt < we ∧ ws < r.endAt) := by
  intro hov
  have ht : conflictWhere s standId excl ws we r = true :=
    (conflictWhere_eq_true_iff s standId excl ws we r).mpr ⟨hs, hne, hov.1, hov.2, ha⟩
  rw [hf] at ht
  exact Bool.false_ne_true ht

theorem NoOverlap_insert {s : State} {nr : StandReservation}
    (hno : NoOverlap s)
    (hc : ∀ r ∈ s.reservations,
      conflictWhere s nr.standId nr.eventId nr.startAt nr.endAt r = false) :
    ∀ r1 ∈ replaceOrAppend s.reservations nr, ∀ r2 ∈ replaceOrAppend s.reservations nr,
      r1.eventId ≠ r2.eventId → r1.standId = r2.standId →
      activeAt s r1.eventId = true → activeAt s r2.eventId = true →
      ¬(r1.startAt < r2.endAt ∧ r2.startAt < r1.endAt) := by
  intro r1 h1 r2 h2 hne hstand ha1 ha2 hov
  rcases mem_replaceOrAppend h1 with h1n | ⟨h1s, h1ne⟩
  · rcases mem_replaceOrAppend h2 with h2n | ⟨h2s, h2ne⟩
    · rw [h1n, h2n] at hne
      exact hne rfl
    · rw [h1n] at hne hstand hov
      exact conflictWhere_false_elim (hc r2 h2s) hstand.symm (fun hcl => hne hcl.symm) ha2
        ⟨hov.2, hov.1⟩
  · rcases mem_replaceOrAppend h2 with h2n | ⟨h2s, h2ne⟩
    · rw [h2n] at hne hstand hov
      exact conflictWhere_false_elim (hc r1 h1s) hstand hne ha1 ⟨hov.1, hov.2⟩
    · exact hno r1 h1s r2 h2s hne hstand ha1 ha2 hov

theorem dndPlace_cases (s : State) (ctx : ActorCtx) (roles : List String) (req : DndPlaceReq) :
    (dndPlace s ctx roles req).2 = s ∨
    ∃ res b, dndPlace s ctx roles req = (Except.ok (res, b), (dndPlace s ctx roles req).2) := by
  unfold dndPlace
  split
  · left
    rfl
  · split
    · left
      rfl
    · cases htx : dndPlaceTx s ctx req with
      | error e => left; rfl
      | ok t =>
        obtain ⟨r, bIds, st⟩ := t
        right
        exact ⟨r, bIds, rfl⟩

theorem placeTransform_id (eid : Nat) (ws we : Int) (lay hang : Option Nat)
    (e : MaintenanceEvent) : (placeTransform eid ws we lay hang e).id = e.id := by
  unfold placeTransform
  split <;> rfl

theorem placeTransform_status (eid : Nat) (ws we : Int) (lay hang : Option Nat)
    (e : MaintenanceEvent) : (placeTransform eid ws we lay hang e).status = e.status := by
  unfold placeTransform
  split <;> rfl

theorem contains_false_iff (l : List Nat) (x : Nat) : l.contains x = false ↔ x ∉ l := by
  simp

theorem conflicts_nil_of_guards {c : List StandReservation} {bump : Bool}
    (h1 : (c.length > 0 && !bump) = false)
    (h2 : ¬((c.length > 0 && bump) = true)) : c = [] := by
  cases hb : bump
  · rw [hb] at h1
    simp at h1
    exact h1
  · rw [hb] at h2
    simp at h2
    exact h2

theorem NoOverlap_of_subset (s t : State) (hev : t.events = s.events)
    (hsub : ∀ r ∈ t.reservations, r ∈ s.reservations) (hno : NoOverlap s) :
    NoOverlap t := by
  intro r1 h1 r2 h2 hne hstand ha1 ha2
  rw [activeAt_congr hev] at ha1 ha2
  exact hno r1 (hsub r1 h1) r2 (hsub r2 h2) hne hstand ha1 ha2

theorem NoOverlap_insert_state (base : State) (nr : StandReservation) {t : State}
    (hres : t.reservations = replaceOrAppend base.reservations nr)
    (hact : ∀ x, activeAt t x = activeAt base x)
    (hno : NoOverlap base)
    (hc : ∀ r ∈ base.reservations,
      conflictWhere base nr.standId nr.eventId nr.startAt nr.endAt r = false) :
    NoOverlap t := by
  intro r1 h1 r2 h2 hne hstand ha1 ha2
  rw [hres] at h1 h2
  rw [hact] at ha1 ha2
  exact NoOverlap_insert hno hc r1 h1 r2 h2 hne hstand ha1 ha2

theorem NoOverlap_insert_after_bump (s : State) (nr : StandReservation)
    (conflicts : List StandReservation) {t : State}
    (hcdef : conflicts
      = s.reservations.filter (conflictWhere s nr.standId nr.eventId nr.startAt nr.endAt))
    (hres : t.reservations = replaceOrAppend
      (s.reservations.filter
        (fun r => !((conflicts.map (fun c => c.eventId)).contains r.eventId))) nr)
    (hact : ∀ x, (conflicts.map (fun c => c.eventId)).contains x = false →
      activeAt t x = activeAt s x)
    (hno : NoOverlap s) : NoOverlap t := by
  intro r1 h1 r2 h2 hne hstand ha1 ha2 hov
  rw [hres] at h1 h2
  have notConf : ∀ r, r ∈ s.reservations →
      (conflicts.map (fun c => c.eventId)).contains r.eventId = false →
      conflictWhere s nr.standId nr.eventId nr.startAt nr.endAt r = false := by
    intro r hrs hrb
    by_contra hx
    have hx' : conflictWhere s nr.standId nr.eventId nr.startAt nr.endAt r = true := by
      rcases Bool.eq_false_or_eq_true
        (conflictWhere s nr.standId nr.eventId nr.startAt nr.endAt r) with hq | hq
      · exact hq
      · exact absurd hq hx
    have hrc : r ∈ conflicts := by
      rw [hcdef]
      exact List.mem_filter.mpr ⟨hrs, hx'⟩
    have hmem : r.eventId ∈ conflicts.map (fun c => c.eventId) :=
      List.mem_map.mpr ⟨r, hrc, rfl⟩
    exact (contains_false_iff _ _).mp hrb hmem
  rcases mem_replaceOrAppend h1 with h1n | ⟨h1f, h1ne⟩
  · rcases mem_replaceOrAppend h2 with h2n | ⟨h2f, h2ne⟩
    · rw [h1n, h2n] at hne
      exact hne rfl
    · obtain ⟨h2s, h2nb⟩ := List.mem_filter.mp h2f
      have h2nb' : (conflicts.map (fun c => c.eventId)).contains r2.eventId = false := by
        simpa using h2nb
      have ha2' : activeAt s r2.eventId = true := by
        rw [← hact _ h2nb']
        exact ha2
      rw [h1n] at hne hstand hov
      exact conflictWhere_false_elim (notConf r2 h2s h2nb') hstand.symm
        (fun hq => hne hq.symm) ha2' ⟨hov.2, hov.1⟩
  · rcases mem_replaceOrAppend h2 with h2n | ⟨h2f, h2ne⟩
    · obtain ⟨h1s, h1nb⟩ := List.mem_filter.mp h1f
      have h1nb' : (conflicts.map (fun c => c.eventId)).contains r1.eventId = false := by
        simpa using h1nb
      have ha1' : activeAt s r1.eventId = true := by
        rw [← hact _ h1nb']
        exact ha1
      rw [h2n] at hne hstand hov
      exact conflictWhere_false_elim (notConf r1 h1s h1nb') hstand hne ha1' ⟨hov.1, hov.2⟩
    · obtain ⟨h1s, h1nb⟩ := List.mem_filter.mp h1f
      obtain ⟨h2s, h2nb⟩ := List.mem_filter.mp h2f
      have ha1' : activeAt s r1.eventId = true := by
        rw [← hact _ (by simpa using h1nb)]
        exact ha1
      have ha2' : activeAt s r2.eventId = true := by
        rw [← hact _ (by simpa using h2nb)]
        exact ha2
      exact hno r1 h1s r2 h2s hne hstand ha1' ha2' hov

theorem activeAt_moveWrap (A : State) (R : List StandReservation) (eid : Nat)
    (lay hang : Option Nat) (a : AuditRecord) (x : Nat) :
    activeAt (appendAudit (setEventPointers { A with reservations := R } eid lay hang) a) x
      = activeAt A x := by
  rw [activeAt_appendAudit, activeAt_setEventPointers]
  exact activeAt_congr rfl x

theorem activeAt_placeWrap (A : State) (R : List StandReservation) (eid : Nat)
    (ws we : Int) (lay hang : Option Nat) (a : AuditRecord) (x : Nat) :
    activeAt (appendAudit
      { A with
        events := A.events.map (placeTransform eid ws we lay hang)
        reservations := R } a) x
      = activeAt A x := by
  rw [activeAt_appendAudit]
  have h1 : activeAt
      ({ A with
        events := A.events.map (placeTransform eid ws we lay hang)
        reservations := R }) x
      = activeAt { A with events := A.events.map (placeTransform eid ws we lay hang) } x :=
    activeAt_congr rfl x
  rw [h1]
  exact activeAt_map_of_id_status (placeTransform_id eid ws we lay hang)
    (placeTransform_status eid ws we lay hang) x

theorem NoOverlap_dndMovePost (s : State) (ctx : ActorCtx) (req : DndMoveReq)
    (event : MaintenanceEvent) (layout : HangarLayout)
    (hb : req.bumpedEventId = none)
    (hguard : ((dndConflicts s req.standId req.eventId req.bumpedEventId
        event.startAt event.endAt).length > 0 && !(req.bumpOnConflict.getD false)) = false)
    (hno : NoOverlap s) :
    NoOverlap (dndMovePost s ctx req event layout) := by
  unfold dndMovePost
  dsimp only
  rw [hb] at hguard ⊢
  simp only [dndConflicts] at hguard ⊢
  by_cases hC : ((s.reservations.filter (conflictWhere s req.standId req.eventId
      event.startAt event.endAt)).length > 0 && (req.bumpOnConflict.getD false)) = true
  · simp only [hC, if_true]
    apply NoOverlap_insert_after_bump s
      ⟨req.eventId, req.layoutId, req.standId, event.startAt, event.endAt⟩
      (s.reservations.filter (conflictWhere s req.standId req.eventId
        event.startAt event.endAt)) rfl rfl ?_ hno
    intro x hx
    rw [activeAt_moveWrap]
    exact activeAt_applyBump_not _ _ _ _ _ _ hx
  · have hnil : s.reservations.filter (conflictWhere s req.standId req.eventId
        event.startAt event.endAt) = [] := conflicts_nil_of_guards hguard hC
    simp only [hnil, List.length_nil, gt_iff_lt, lt_self_iff_false, decide_False,
      Bool.false_and, Bool.false_eq_true, if_false]
    apply NoOverlap_insert_state s
      ⟨req.eventId, req.layoutId, req.standId, event.startAt, event.endAt⟩ rfl ?_ hno ?_
    · intro x
      rw [activeAt_moveWrap]
    · intro r hr
      have := List.filter_eq_nil_iff.mp hnil r hr
      simpa using this

theorem NoOverlap_dndPlacePost (s : State) (ctx : ActorCtx) (req : DndPlaceReq)
    (event : MaintenanceEvent) (layout : HangarLayout)
    (hb : req.bumpedEventId = none)
    (hguard : ((dndConflicts s req.standId req.eventId req.bumpedEventId
        req.startAt req.endAt).length > 0 && !(req.bumpOnConflict.getD false)) = false)
    (hno : NoOverlap s) :
    NoOverlap (dndPlacePost s ctx req event layout) := by
  unfold dndPlacePost
  dsimp only
  rw [hb] at hguard ⊢
  simp only [dndConflicts] at hguard ⊢
  by_cases hC : ((s.reservations.filter (conflictWhere s req.standId req.eventId
      req.startAt req.endAt)).length > 0 && (req.bumpOnConflict.getD false)) = true
  · simp only [hC, if_true]
    apply NoOverlap_insert_after_bump s
      ⟨req.eventId, req.layoutId, req.standId, req.startAt, req.endAt⟩
      (s.reservations.filter (conflictWhere s req.standId req.eventId
        req.startAt req.endAt)) rfl rfl ?_ hno
    intro x hx
    rw [activeAt_placeWrap]
    exact activeAt_applyBump_not _ _ _ _ _ _ hx
  · have hnil : s.reservations.filter (conflictWhere s req.standId req.eventId
        req.startAt req.endAt) = [] := conflicts_nil_of_guards hguard hC
    simp only [hnil, List.length_nil, gt_iff_lt, lt_self_iff_false, decide_False,
      Bool.false_and, Bool.false_eq_true, if_false]
    apply NoOverlap_insert_state s
      ⟨req.eventId, req.layoutId, req.standId, req.startAt, req.endAt⟩ rfl ?_ hno ?_
    · intro x
      rw [activeAt_placeWrap]
    · intro r hr
      have := List.filter_eq_nil_iff.mp hnil r hr
      simpa using this

theorem NoOverlap_assign (s : State) (ctx : ActorCtx) (req : AssignReq)
    (hno : NoOverlap s) : NoOverlap (assignReservation s ctx req).2 := by
  rcases assign_cases s ctx req with heq | ⟨event, layout, hev, hlay, hconf, hpost⟩
  · rw [heq]
    exact hno
  · have hc : ∀ r ∈ s.reservations, conflictWhere s req.standId req.eventId
        (req.startAt.getD event.startAt) (req.endAt.getD event.endAt) r = false := by
      intro r hr
      have := List.find?_eq_none.mp hconf r hr
      simpa using this
    rcases hpost with h | ⟨a, _, _, h⟩
    · rw [h]
      apply NoOverlap_insert_state s (assignNewRes req event) rfl ?_ hno hc
      intro x
      unfold assignWriteState
      rw [activeAt_setEventPointers]
      exact activeAt_congr rfl x
    · rw [h]
      apply NoOverlap_insert_state s (assignNewRes req event) rfl ?_ hno hc
      intro x
      unfold assignWriteState
      rw [activeAt_appendAudit, activeAt_setEventPointers]
      exact activeAt_congr rfl x

theorem unassign_state_cases (s : State) (ctx : ActorCtx) (eid : Nat) :
    (findReservationByEvent s eid = none ∧
      unassignReservation s ctx eid = ({ deleted := 0 }, s)) ∨
    ∃ existing, findReservationByEvent s eid = some existing ∧
      unassignReservation s ctx eid
        = ({ deleted := (s.reservations.filter (fun r => r.eventId == eid)).length },
           appendAudit
             { s with reservations := s.reservations.filter (fun r => !(r.eventId == eid)) }
             { eventId := eid
               action := EventAuditAction.UNRESERVE
               actor := getActor ctx
               reason := some "Снятие резерва"
               changes := AuditChanges.unreserve (resSnapshot existing) none }) := by
  unfold unassignReservation
  cases hf : findReservationByEvent s eid with
  | none => exact Or.inl ⟨rfl, rfl⟩
  | some existing =>
    right
    exact ⟨existing, rfl, rfl⟩

theorem NoOverlap_unassign (s : State) (ctx : ActorCtx) (eid : Nat)
    (hno : NoOverlap s) : NoOverlap (unassignReservation s ctx eid).2 := by
  rcases unassign_state_cases s ctx eid with ⟨hnone, heq⟩ | ⟨existing, hf, heq⟩
  · rw [heq]
    exact hno
  · have h2 : (unassignReservation s ctx eid).2
        = appendAudit
            { s with reservations := s.reservations.filter (fun r => !(r.eventId == eid)) }
            { eventId := eid
              action := EventAuditAction.UNRESERVE
              actor := getActor ctx
              reason := some "Снятие резерва"
              changes := AuditChanges.unreserve (resSnapshot existing) none } := by
      rw [heq]
    rw [h2]
    exact NoOverlap_of_subset s _ rfl (fun r hr => (List.mem_filter.mp hr).1) hno

theorem NoOverlap_dndMove (s : State) (ctx : ActorCtx) (roles : List String)
    (req : DndMoveReq) (hb : req.bumpedEventId = none) (hno : NoOverlap s) :
    NoOverlap (dndMove s ctx roles req).2 := by
  rcases dndMove_cases s ctx roles req with heq | ⟨res, b, hok⟩
  · rw [heq]
    exact hno
  · obtain ⟨event, hev, layout, hlay, hrest⟩ := dndMove_ok_inv hok
    dsimp only at hrest
    obtain ⟨hguard, -, -, hpost⟩ := hrest
    rw [hpost]
    exact NoOverlap_dndMovePost s ctx req event layout hb hguard hno

theorem NoOverlap_dndPlace (s : State) (ctx : ActorCtx) (roles : List String)
    (req : DndPlaceReq) (hb : req.bumpedEventId = none) (hno : NoOverlap s) :
    NoOverlap (dndPlace s ctx roles req).2 := by
  rcases dndPlace_cases s ctx roles req with heq | ⟨res, b, hok⟩
  · rw [heq]
    exact hno
  · obtain ⟨hwin, event, hev, layout, hlay, hrest⟩ := dndPlace_ok_inv hok
    dsimp only at hrest
    obtain ⟨hguard, -, -, hpost⟩ := hrest
    rw [hpost]
    exact NoOverlap_dndPlacePost s ctx req event layout hb hguard hno

/-- Claim C1 (amended): starting from any state satisfying the stand
non-overlap invariant, every sequence of assignReservation, dndMove,
dndPlace and unassignReservation operations in which the dnd requests do
not supply a specific bumpedEventId preserves the invariant: on each
stand, reservations of non-cancelled events have pairwise non-overlapping
half-open windows.  (A dndMove or dndPlace given a specific bumpedEventId
checks only the named event's reservation and can commit an overlap — see
the counterexample.) -/
theorem claim1_nonoverlap_preserved : ∀ s, ReachableNB s → NoOverlap s := by
  intro s h
  induction h with
  | init s h => exact h
  | assign s ctx req h ih => exact NoOverlap_assign s ctx req ih
  | move s ctx roles req hb h ih => exact NoOverlap_dndMove s ctx roles req hb ih
  | place s ctx roles req hb h ih => exact NoOverlap_dndPlace s ctx roles req hb ih
  | unassign s ctx eid h ih => exact NoOverlap_unassign s ctx eid ih

/-- Witness for C1: a concrete two-step reachable state (a bump-all
dnd-move from the sample state) satisfies the invariant. -/
theorem claim1_nonoverlap_preserved_witness :
    NoOverlap (dndMove exState exCtx ["ADMIN"]
      { eventId := 2, layoutId := 10, standId := 100,
        bumpOnConflict := some true, bumpedEventId := none,
        changeReason := "move" }).2 :=
  claim1_nonoverlap_preserved _
    (ReachableNB.move exState exCtx ["ADMIN"]
      { eventId := 2, layoutId := 10, standId := 100,
        bumpOnConflict := some true, bumpedEventId := none,
        changeReason := "move" }
      rfl (ReachableNB.init exState (by decide)))

/-- Counterexample to C1 as stated: from a non-overlapping state, a
dndMove that supplies a specific bumpedEventId (event 3, which has no
overlapping reservation) succeeds and commits event 2's reservation on
stand 100 over [0,10) even though event 1, a PLANNED event, already holds
stand 100 over [0,10) — the resulting state violates the invariant. -/
theorem claim1_counterexample :
    NoOverlap exState ∧
    (dndMove exState exCtx ["ADMIN"]
        { eventId := 2, layoutId := 10, standId := 100,
          bumpOnConflict := some true, bumpedEventId := some 3,
          changeReason := "move" }).1
      = Except.ok (⟨2, 10, 100, 0, 10⟩, ([] : List Nat)) ∧
    ¬ NoOverlap (dndMove exState exCtx ["ADMIN"]
        { eventId := 2, layoutId := 10, standId := 100,
          bumpOnConflict := some true, bumpedEventId := some 3,
          changeReason := "move" }).2 :=
  ⟨by decide, by rfl, by decide⟩

/-- Claim C5: the conflict check used by the assign handler reports a
reservation as conflicting iff it sits on the queried stand, belongs to a
different event than the excluded one, satisfies the half-open overlap
test startAt < windowEnd and endAt > windowStart, and its owning event
exists with status other than CANCELLED; consequently back-to-back
windows never conflict and reservations of CANCELLED events never block. -/
theorem claim5_conflict_check (s : State) (standId excl : Nat) (ws we : Int)
    (r : StandReservation) :
    (conflictWhere s standId excl ws we r = true ↔
      (r.standId = standId ∧ r.eventId ≠ excl ∧ r.startAt < we ∧ r.endAt > ws ∧
        ∃ e, findEvent s r.eventId = some e ∧ e.status ≠ EventStatus.CANCELLED)) ∧
    (r.endAt = ws → conflictWhere s standId excl ws we r = false) ∧
    (r.startAt = we → conflictWhere s standId excl ws we r = false) ∧
    (∀ e, findEvent s r.eventId = some e → e.status = EventStatus.CANCELLED →
      conflictWhere s standId excl ws we r = false) ∧
    (r.eventId = excl → conflictWhere s standId excl ws we r = false) := by
  have hiff := conflictWhere_eq_true_iff s standId excl ws we r
  have hfalse : ∀ (p : Prop), (conflictWhere s standId excl ws we r = true → p → False) →
      p → conflictWhere s standId excl ws we r = false := by
    intro p hcontra hp
    rcases Bool.eq_false_or_eq_true (conflictWhere s standId excl ws we r) with hq | hq
    · exact absurd hp (fun hp2 => hcontra hq hp2)
    · exact hq
  refine ⟨?_, ?_, ?_, ?_, ?_⟩
  · constructor
    · intro h
      obtain ⟨h1, h2, h3, h4, h5⟩ := hiff.mp h
      exact ⟨h1, h2, h3, h4, (activeAt_eq_true_iff s r.eventId).mp h5⟩
    · rintro ⟨h1, h2, h3, h4, h5⟩
      exact hiff.mpr ⟨h1, h2, h3, h4, (activeAt_eq_true_iff s r.eventId).mpr h5⟩
  · refine hfalse _ ?_
    intro hq hp
    have h4 := (hiff.mp hq).2.2.2.1
    rw [hp] at h4
    exact lt_irrefl ws h4
  · refine hfalse _ ?_
    intro hq hp
    have h3 := (hiff.mp hq).2.2.1
    rw [hp] at h3
    exact lt_irrefl we h3
  · intro e hfind hcanc
    refine hfalse True ?_ trivial
    intro hq _
    have h5 := (activeAt_eq_true_iff s r.eventId).mp (hiff.mp hq).2.2.2.2
    obtain ⟨e2, hfind2, hst⟩ := h5
    rw [hfind] at hfind2
    injection hfind2 with hfind2
    rw [← hfind2] at hst
    exact hst hcanc
  · refine hfalse _ ?_
    intro hq hp
    exact (hiff.mp hq).2.1 hp

/-- Witness for C5: concrete evaluations — an overlapping active
reservation conflicts; one ending exactly at the window start does not;
the excluded event's own reservation does not. -/
theorem claim5_conflict_check_witness :
    conflictWhere exState 100 2 (5 : Int) (15 : Int) exRes1 = true ∧
    conflictWhere exState 100 2 (10 : Int) (20 : Int) exRes1 = false ∧
    conflictWhere exState 100 1 (5 : Int) (15 : Int) exRes1 = false :=
  ⟨(claim5_conflict_check exState 100 2 5 15 exRes1).1.mpr
      ⟨rfl, by decide, by decide, by decide, exEvent1, rfl, by decide⟩,
    (claim5_conflict_check exState 100 2 10 20 exRes1).2.1 rfl,
    (claim5_conflict_check exState 100 1 5 15 exRes1).2.2.2.2 rfl⟩

theorem dndMovePost_audits (s : State) (ctx : ActorCtx) (req : DndMoveReq)
    (event : MaintenanceEvent) (layout : HangarLayout) :
    (dndMovePost s ctx req event layout).audits
      = s.audits
        ++ ((if (dndConflicts s req.standId req.eventId req.bumpedEventId
                event.startAt event.endAt).length > 0 && req.bumpOnConflict.getD false then
              (dndConflicts s req.standId req.eventId req.bumpedEventId
                event.startAt event.endAt).map (fun c => c.eventId)
            else []).map (fun b => bumpAuditRecord ctx b req.eventId req.changeReason))
        ++ [{ eventId := req.eventId
              action := EventAuditAction.RESERVE
              actor := getActor ctx
              reason := some req.changeReason
              changes := AuditChanges.dndMoveReserve (req.bumpOnConflict.getD false)
                (if (dndConflicts s req.standId req.eventId req.bumpedEventId
                    event.startAt event.endAt).length > 0 && req.bumpOnConflict.getD false then
                  (dndConflicts s req.standId req.eventId req.bumpedEventId
                    event.startAt event.endAt).map (fun c => c.eventId)
                 else [])
                ((findReservationByEvent s req.eventId).map resSnapshot)
                (resSnapshot ⟨req.eventId, req.layoutId, req.standId,
                  event.startAt, event.endAt⟩) }] := by
  unfold dndMovePost
  dsimp only
  by_cases hC : ((dndConflicts s req.standId req.eventId req.bumpedEventId
      event.startAt event.endAt).length > 0 && req.bumpOnConflict.getD false) = true
  · simp only [hC, if_true]
    rfl
  · have hC' : ((dndConflicts s req.standId req.eventId req.bumpedEventId
        event.startAt event.endAt).length > 0 && req.bumpOnConflict.getD false) = false := by
      simpa using hC
    simp only [hC', Bool.false_eq_true, if_false, List.map_nil, List.append_nil]
    rfl

theorem dndPlacePost_audits (s : State) (ctx : ActorCtx) (req : DndPlaceReq)
    (event : MaintenanceEvent) (layout : HangarLayout) :
    (dndPlacePost s ctx req event layout).audits
      = s.audits
        ++ ((if (dndConflicts s req.standId req.eventId req.bumpedEventId
                req.startAt req.endAt).length > 0 && req.bumpOnConflict.getD false then
              (dndConflicts s req.standId req.eventId req.bumpedEventId
                req.startAt req.endAt).map (fun c => c.eventId)
            else []).map (fun b => bumpAuditRecord ctx b req.eventId req.changeReason))
        ++ [{ eventId := req.eventId
              action := EventAuditAction.UPDATE
              actor := getActor ctx
              reason := some req.changeReason
              changes := AuditChanges.dndPlaceUpdate (req.bumpOnConflict.getD false)
                (if (dndConflicts s req.standId req.eventId req.bumpedEventId
                    req.startAt req.endAt).length > 0 && req.bumpOnConflict.getD false then
                  (dndConflicts s req.standId req.eventId req.bumpedEventId
                    req.startAt req.endAt).map (fun c => c.eventId)
                 else [])
                { startAt := event.startAt
                  endAt := event.endAt
                  hangarId := event.hangarId
                  layoutId := event.layoutId
                  reservation := (findReservationByEvent s req.eventId).map resSnapshot }
                { startAt := req.startAt
                  endAt := req.endAt
                  hangarId := some layout.hangarId
                  layoutId := some layout.id
                  reservation := some (resSnapshot ⟨req.eventId, req.layoutId, req.standId,
                    req.startAt, req.endAt⟩) } }] := by
  unfold dndPlacePost
  dsimp only
  by_cases hC : ((dndConflicts s req.standId req.eventId req.bumpedEventId
      req.startAt req.endAt).length > 0 && req.bumpOnConflict.getD false) = true
  · simp only [hC, if_true]
    rfl
  · have hC' : ((dndConflicts s req.standId req.eventId req.bumpedEventId
        req.startAt req.endAt).length > 0 && req.bumpOnConflict.getD false) = false := by
      simpa using hC
    simp only [hC', Bool.false_eq_true, if_false, List.map_nil, List.append_nil]
    rfl

theorem audits_actor_assign (s : State) (ctx : ActorCtx) (req : AssignReq)
    (a : AuditRecord) (ha : a ∈ (assignReservation s ctx req).2.audits) :
    a ∈ s.audits ∨ a.actor = getActor ctx := by
  rcases assign_cases s ctx req with heq | ⟨event, layout, _, _, _, hpost⟩
  · rw [heq] at ha
    exact Or.inl ha
  · rcases hpost with h | ⟨a', hact, _, h⟩
    · rw [h] at ha
      exact Or.inl ha
    · rw [h] at ha
      rcases List.mem_append.mp ha with h1 | h1
      · exact Or.inl h1
      · right
        have h2 : a = a' := by simpa using h1
        rw [h2]
        exact hact

theorem audits_actor_dndMove (s : State) (ctx : ActorCtx) (roles : List String)
    (req : DndMoveReq) (a : AuditRecord) (ha : a ∈ (dndMove s ctx roles req).2.audits) :
    a ∈ s.audits ∨ a.actor = getActor ctx := by
  rcases dndMove_cases s ctx roles req with heq | ⟨res, b, hok⟩
  · rw [heq] at ha
    exact Or.inl ha
  · obtain ⟨event, hev, layout, hlay, hrest⟩ := dndMove_ok_inv hok
    dsimp only at hrest
    obtain ⟨-, -, -, hpost⟩ := hrest
    rw [hpost, dndMovePost_audits] at ha
    rcases List.mem_append.mp ha with h1 | h1
    · rcases List.mem_append.mp h1 with h2 | h2
      · exact Or.inl h2
      · right
        rcases List.mem_map.mp h2 with ⟨bid, -, hb⟩
        rw [← hb]
        rfl
    · right
      have h2 := List.mem_singleton.mp h1
      rw [h2]

theorem audits_actor_dndPlace (s : State) (ctx : ActorCtx) (roles : List String)
    (req : DndPlaceReq) (a : AuditRecord) (ha : a ∈ (dndPlace s ctx roles req).2.audits) :
    a ∈ s.audits ∨ a.actor = getActor ctx := by
  rcases dndPlace_cases s ctx roles req with heq | ⟨res, b, hok⟩
  · rw [heq] at ha
    exact Or.inl ha
  · obtain ⟨hwin, event, hev, layout, hlay, hrest⟩ := dndPlace_ok_inv hok
    dsimp only at hrest
    obtain ⟨-, -, -, hpost⟩ := hrest
    rw [hpost, dndPlacePost_audits] at ha
    rcases List.mem_append.mp ha with h1 | h1
    · rcases List.mem_append.mp h1 with h2 | h2
      · exact Or.inl h2
      · right
        rcases List.mem_map.mp h2 with ⟨bid, -, hb⟩
        rw [← hb]
        rfl
    · right
      have h2 := List.mem_singleton.mp h1
      rw [h2]

theorem audits_actor_unassign (s : State) (ctx : ActorCtx) (eid : Nat)
    (a : AuditRecord) (ha : a ∈ (unassignReservation s ctx eid).2.audits) :
    a ∈ s.audits ∨ a.actor = getActor ctx := by
  rcases unassign_state_cases s ctx eid with ⟨hnone, heq⟩ | ⟨existing, hf, heq⟩
  · rw [heq] at ha
    exact Or.inl ha
  · have h2 : (unassignReservation s ctx eid).2
        = appendAudit
            { s with reservations := s.reservations.filter (fun r => !(r.eventId == eid)) }
            { eventId := eid
              action := EventAuditAction.UNRESERVE
              actor := getActor ctx
              reason := some "Снятие резерва"
              changes := AuditChanges.unreserve (resSnapshot existing) none } := by
      rw [heq]
    rw [h2] at ha
    rcases List.mem_append.mp ha with h1 | h1
    · exact Or.inl h1
    · right
      have h3 := List.mem_singleton.mp h1
      rw [h3]

/-- Claim C10: the audit actor string is derived deterministically from
the request: the authenticated email when present (truthy), else the
x-actor header, else the x-user header, else "browser"; it is always at
most 80 characters (JavaScript slice(0,80)); and every audit record
appended by any of the four write paths carries exactly this actor. -/
theorem claim10_actor_derivation :
    (∀ ctx, (getActor ctx).length ≤ 80) ∧
    (∀ ctx e, ctx.authEmail = some e → e ≠ "" → getActor ctx = slice80 e) ∧
    (∀ ctx a, (ctx.authEmail = none ∨ ctx.authEmail = some "") → ctx.xActor = some a →
      getActor ctx = slice80 a) ∧
    (∀ ctx u, (ctx.authEmail = none ∨ ctx.authEmail = some "") → ctx.xActor = none →
      ctx.xUser = some u → getActor ctx = slice80 u) ∧
    (∀ ctx, (ctx.authEmail = none ∨ ctx.authEmail = some "") → ctx.xActor = none →
      ctx.xUser = none → getActor ctx = "browser") ∧
    (∀ s ctx req a, a ∈ (assignReservation s ctx req).2.audits →
      a ∈ s.audits ∨ a.actor = getActor ctx) ∧
    (∀ s ctx roles req a, a ∈ (dndMove s ctx roles req).2.audits →
      a ∈ s.audits ∨ a.actor = getActor ctx) ∧
    (∀ s ctx roles req a, a ∈ (dndPlace s ctx roles req).2.audits →
      a ∈ s.audits ∨ a.actor = getActor ctx) ∧
    (∀ s ctx eid a, a ∈ (unassignReservation s ctx eid).2.audits →
      a ∈ s.audits ∨ a.actor = getActor ctx) := by
  refine ⟨?_, ?_, ?_, ?_, ?_,
    fun s ctx req a ha => audits_actor_assign s ctx req a ha,
    fun s ctx roles req a ha => audits_actor_dndMove s ctx roles req a ha,
    fun s ctx roles req a ha => audits_actor_dndPlace s ctx roles req a ha,
    fun s ctx eid a ha => audits_actor_unassign s ctx eid a ha⟩
  · intro ctx
    unfold getActor
    cases ctx.authEmail with
    | none => exact slice80_length _
    | some e =>
      dsimp only
      split
      · exact slice80_length _
      · exact slice80_length _
  · intro ctx e he hne
    unfold getActor
    rw [he]
    dsimp only
    rw [if_neg hne]
  · intro ctx a hmail ha
    unfold getActor
    rcases hmail with h | h <;> rw [h] <;> dsimp only
    · rw [ha]
      rfl
    · rw [if_pos rfl, ha]
      rfl
  · intro ctx u hmail hactor hu
    unfold getActor
    rcases hmail with h | h <;> rw [h] <;> dsimp only
    · rw [hactor, hu]
      rfl
    · rw [if_pos rfl, hactor, hu]
      rfl
  · intro ctx hmail hactor hu
    unfold getActor
    rcases hmail with h | h <;> rw [h] <;> dsimp only
    · rw [hactor, hu]
      rfl
    · rw [if_pos rfl, hactor, hu]
      rfl

/-- Witness for C10: the derivation chain at concrete request contexts. -/
theorem claim10_actor_derivation_witness :
    getActor ⟨some "alice", some "bob", none⟩ = slice80 "alice" ∧
    getActor ⟨some "", some "bob", none⟩ = slice80 "bob" ∧
    getActor ⟨none, none, some "carol"⟩ = slice80 "carol" ∧
    getActor ⟨none, none, none⟩ = "browser" :=
  ⟨claim10_actor_derivation.2.1 ⟨some "alice", some "bob", none⟩ "alice" rfl (by decide),
    claim10_actor_derivation.2.2.1 ⟨some "", some "bob", none⟩ "bob" (Or.inr rfl) rfl,
    claim10_actor_derivation.2.2.2.1 ⟨none, none, some "carol"⟩ "carol" (Or.inl rfl) rfl rfl,
    claim10_actor_derivation.2.2.2.2.1 ⟨none, none, none⟩ (Or.inl rfl) rfl rfl⟩

/-- Claim C2 (code bug): the PUT /by-event handler runs outside any
transaction and checks the mandatory change reason only AFTER the
reservation upsert and the event pointer update; at the concrete failing
input (move event 1's reservation from stand 100 to stand 200 without a
changeReason) the call fails with the Validation error, yet the
reservation row has already been moved to stand 200 and no audit was
written — the store is not as it was before the call. -/
theorem claim2_atomicity_bug :
    (assignReservation exState exCtx
        { eventId := 1, layoutId := 10, standId := 200, startAt := none, endAt := none,
          changeReason := none }).1
      = Except.error (ApiError.validationError
          "changeReason is required when changing reservation") ∧
    (assignReservation exState exCtx
        { eventId := 1, layoutId := 10, standId := 200, startAt := none, endAt := none,
          changeReason := none }).2.reservations = [⟨1, 10, 200, 0, 10⟩] ∧
    (assignReservation exState exCtx
        { eventId := 1, layoutId := 10, standId := 200, startAt := none, endAt := none,
          changeReason := none }).2.reservations ≠ exState.reservations ∧
    (assignReservation exState exCtx
        { eventId := 1, layoutId := 10, standId := 200, startAt := none, endAt := none,
          changeReason := none }).2.audits = exState.audits :=
  ⟨rfl, rfl, by decide, rfl⟩

/-- Claim C3 (code bug): the handler computes `changed` as true whenever
there is NO prior reservation, so a first assignment without a
changeReason is rejected with the Validation error (contradicting the
spec and the handler's own dead fallback reason for first assignments),
while the same first assignment with a reason succeeds, and a no-op save
with identical values needs no reason. -/
theorem claim3_first_assignment_reason_bug :
    (assignReservation exState exCtx
        { eventId := 2, layoutId := 10, standId := 200, startAt := none, endAt := none,
          changeReason := none }).1
      = Except.error (ApiError.validationError
          "changeReason is required when changing reservation") ∧
    (assignReservation exState exCtx
        { eventId := 2, layoutId := 10, standId := 200, startAt := none, endAt := none,
          changeReason := some "first placement" }).1
      = Except.ok ⟨2, 10, 200, 0, 10⟩ ∧
    (assignReservation exState exCtx
        { eventId := 1, layoutId := 10, standId := 100, startAt := none, endAt := none,
          changeReason := none }).1
      = Except.ok ⟨1, 10, 100, 0, 10⟩ :=
  ⟨rfl, rfl, rfl⟩

/-- Claim C7: unassign is idempotent and never errors (it is a total
function into a success result): with no reservation it returns zero
deletions and leaves the store untouched; with a reservation it deletes
exactly it, returns deleted = 1 (given the unique-key invariant), writes
one UNRESERVE audit record carrying the prior placement and a null "to",
and a second call then returns deleted = 0. -/
theorem claim7_unassign_idempotent :
    (∀ s ctx eid, findReservationByEvent s eid = none →
      unassignReservation s ctx eid = ({ deleted := 0 }, s)) ∧
    (∀ s ctx eid r, keyUnique s → findReservationByEvent s eid = some r →
      (unassignReservation s ctx eid).1.deleted = 1 ∧
      (unassignReservation s ctx eid).2.reservations
        = s.reservations.filter (fun x => !(x.eventId == eid)) ∧
      (unassignReservation s ctx eid).2.audits
        = s.audits ++ [{ eventId := eid
                         action := EventAuditAction.UNRESERVE
                         actor := getActor ctx
                         reason := some "Снятие резерва"
                         changes := AuditChanges.unreserve (resSnapshot r) none }] ∧
      findReservationByEvent (unassignReservation s ctx eid).2 eid = none ∧
      (unassignReservation (unassignReservation s ctx eid).2 ctx eid).1.deleted = 0) := by
  have h0 : ∀ t ctx2 eid2, findReservationByEvent t eid2 = none →
      unassignReservation t ctx2 eid2 = ({ deleted := 0 }, t) := by
    intro t ctx2 eid2 ht
    unfold unassignReservation
    rw [ht]
  refine ⟨h0, ?_⟩
  intro s ctx eid r hk hf
  rcases unassign_state_cases s ctx eid with ⟨hnone, -⟩ | ⟨existing, hfind2, heq⟩
  · rw [hf] at hnone
    cases hnone
  · rw [hf] at hfind2
    injection hfind2 with hfind2
    rw [← hfind2] at heq
    have hfind : findReservationByEvent (unassignReservation s ctx eid).2 eid = none := by
      rw [heq]
      unfold findReservationByEvent
      rw [List.find?_eq_none]
      intro x hx
      have hx2 := List.mem_filter.mp hx
      simpa using hx2.2
    refine ⟨?_, ?_, ?_, hfind, ?_⟩
    · rw [heq]
      exact count_filter_eq_one hk hf
    · rw [heq]
      rfl
    · rw [heq]
      rfl
    · have := h0 _ ctx eid hfind
      rw [this]

/-- Witness for C7: deleting event 1's reservation from the sample state
returns deleted = 1, and a second unassign returns deleted = 0. -/
theorem claim7_unassign_idempotent_witness :
    (unassignReservation exState exCtx 1).1.deleted = 1 ∧
    (unassignReservation (unassignReservation exState exCtx 1).2 exCtx 1).1.deleted = 0 :=
  ⟨(claim7_unassign_idempotent.2 exState exCtx 1 exRes1 (by decide) rfl).1,
    (claim7_unassign_idempotent.2 exState exCtx 1 exRes1 (by decide) rfl).2.2.2.2⟩


theorem dndMovePost_reservations (s : State) (ctx : ActorCtx) (req : DndMoveReq)
    (event : MaintenanceEvent) (layout : HangarLayout) :
    (dndMovePost s ctx req event layout).reservations
      = replaceOrAppend
          (if (dndConflicts s req.standId req.eventId req.bumpedEventId
              event.startAt event.endAt).length > 0 && req.bumpOnConflict.getD false then
            s.reservations.filter (fun r =>
              !(((dndConflicts s req.standId req.eventId req.bumpedEventId
                event.startAt event.endAt).map (fun c => c.eventId)).contains r.eventId))
          else s.reservations)
          ⟨req.eventId, req.layoutId, req.standId, event.startAt, event.endAt⟩ := by
  unfold dndMovePost
  dsimp only
  by_cases hC : ((dndConflicts s req.standId req.eventId req.bumpedEventId
      event.startAt event.endAt).length > 0 && req.bumpOnConflict.getD false) = true
  · simp only [hC, if_true]
    rfl
  · have hC2 : ((dndConflicts s req.standId req.eventId req.bumpedEventId
        event.startAt event.endAt).length > 0 && req.bumpOnConflict.getD false) = false := by
      simpa using hC
    simp only [hC2, Bool.false_eq_true, if_false]
    rfl

theorem dndPlacePost_reservations (s : State) (ctx : ActorCtx) (req : DndPlaceReq)
    (event : MaintenanceEvent) (layout : HangarLayout) :
    (dndPlacePost s ctx req event layout).reservations
      = replaceOrAppend
          (if (dndConflicts s req.standId req.eventId req.bumpedEventId
              req.startAt req.endAt).length > 0 && req.bumpOnConflict.getD false then
            s.reservations.filter (fun r =>
              !(((dndConflicts s req.standId req.eventId req.bumpedEventId
                req.startAt req.endAt).map (fun c => c.eventId)).contains r.eventId))
          else s.reservations)
          ⟨req.eventId, req.layoutId, req.standId, req.startAt, req.endAt⟩ := by
  unfold dndPlacePost
  dsimp only
  by_cases hC : ((dndConflicts s req.standId req.eventId req.bumpedEventId
      req.startAt req.endAt).length > 0 && req.bumpOnConflict.getD false) = true
  · simp only [hC, if_true]
    rfl
  · have hC2 : ((dndConflicts s req.standId req.eventId req.bumpedEventId
        req.startAt req.endAt).length > 0 && req.bumpOnConflict.getD false) = false := by
      simpa using hC
    simp only [hC2, Bool.false_eq_true, if_false]
    rfl

theorem keyUnique_assign (s : State) (ctx : ActorCtx) (req : AssignReq)
    (hk : keyUnique s) : keyUnique (assignReservation s ctx req).2 := by
  rcases assign_cases s ctx req with heq | ⟨event, layout, -, -, -, hpost⟩
  · rw [heq]
    exact hk
  · have h2 : (assignReservation s ctx req).2.reservations
        = replaceOrAppend s.reservations (assignNewRes req event) := by
      rcases hpost with h | ⟨a, -, -, h⟩ <;> rw [h] <;> rfl
    unfold keyUnique at *
    rw [h2]
    exact pairwise_replaceOrAppend hk

theorem keyUnique_dndMove (s : State) (ctx : ActorCtx) (roles : List String)
    (req : DndMoveReq) (hk : keyUnique s) : keyUnique (dndMove s ctx roles req).2 := by
  rcases dndMove_cases s ctx roles req with heq | ⟨res, b, hok⟩
  · rw [heq]
    exact hk
  · obtain ⟨event, hev, layout, hlay, hrest⟩ := dndMove_ok_inv hok
    dsimp only at hrest
    obtain ⟨-, -, -, hpost⟩ := hrest
    rw [hpost]
    unfold keyUnique at *
    rw [dndMovePost_reservations]
    apply pairwise_replaceOrAppend
    split
    · exact hk.sublist (List.filter_sublist _)
    · exact hk

theorem keyUnique_dndPlace (s : State) (ctx : ActorCtx) (roles : List String)
    (req : DndPlaceReq) (hk : keyUnique s) : keyUnique (dndPlace s ctx roles req).2 := by
  rcases dndPlace_cases s ctx roles req with heq | ⟨res, b, hok⟩
  · rw [heq]
    exact hk
  · obtain ⟨hwin, event, hev, layout, hlay, hrest⟩ := dndPlace_ok_inv hok
    dsimp only at hrest
    obtain ⟨-, -, -, hpost⟩ := hrest
    rw [hpost]
    unfold keyUnique at *
    rw [dndPlacePost_reservations]
    apply pairwise_replaceOrAppend
    split
    · exact hk.sublist (List.filter_sublist _)
    · exact hk

theorem keyUnique_unassign (s : State) (ctx : ActorCtx) (eid : Nat)
    (hk : keyUnique s) : keyUnique (unassignReservation s ctx eid).2 := by
  rcases unassign_state_cases s ctx eid with ⟨hnone, heq⟩ | ⟨existing, hf, heq⟩
  · rw [heq]
    exact hk
  · have h2 : (unassignReservation s ctx eid).2.reservations
        = s.reservations.filter (fun r => !(r.eventId == eid)) := by
      rw [heq]
      rfl
    unfold keyUnique at *
    rw [h2]
    exact hk.sublist (List.filter_sublist _)

/-- Claim C8: every state reachable by the placement operations from a
state satisfying the unique-key constraint keeps at most one reservation
row per event, and the upsert replaces in place: assigning event 2 first
to stand 100 and then to stand 200 leaves exactly one reservation row for
event 2, referencing stand 200. -/
theorem claim8_at_most_one_reservation :
    (∀ s, Reachable s → keyUnique s) ∧
    (∀ s eid, keyUnique s →
      (s.reservations.filter (fun r => r.eventId == eid)).length ≤ 1) ∧
    ((((assignReservation
          (assignReservation exState exCtx
            { eventId := 2, layoutId := 10, standId := 100,
              startAt := some 20, endAt := some 30, changeReason := some "r1" }).2
          exCtx
          { eventId := 2, layoutId := 10, standId := 200,
            startAt := some 20, endAt := some 30,
            changeReason := some "r2" }).2.reservations.filter
        (fun r => r.eventId == 2)))
      = [⟨2, 10, 200, 20, 30⟩]) := by
  refine ⟨?_, ?_, by decide⟩
  · intro s h
    induction h with
    | init s h => exact h
    | assign s ctx req h ih => exact keyUnique_assign s ctx req ih
    | move s ctx roles req h ih => exact keyUnique_dndMove s ctx roles req ih
    | place s ctx roles req h ih => exact keyUnique_dndPlace s ctx roles req ih
    | unassign s ctx eid h ih => exact keyUnique_unassign s ctx eid ih
  · intro s eid hk
    cases hfind : s.reservations.find? (fun r => r.eventId == eid) with
    | none =>
      have hnil : s.reservations.filter (fun r => r.eventId == eid) = [] := by
        rw [List.filter_eq_nil_iff]
        intro a ha
        exact List.find?_eq_none.mp hfind a ha
      rw [hnil]
      decide
    | some r =>
      rw [count_filter_eq_one hk hfind]

/-- Witness for C8: the unique-key constraint holds in the state reached
by a concrete bump-all dnd-move from the sample state. -/
theorem claim8_at_most_one_reservation_witness :
    keyUnique (dndMove exState exCtx ["ADMIN"]
      { eventId := 2, layoutId := 10, standId := 100,
        bumpOnConflict := some true, bumpedEventId := none,
        changeReason := "mv" }).2 :=
  claim8_at_most_one_reservation.1 _
    (Reachable.move exState exCtx ["ADMIN"]
      { eventId := 2, layoutId := 10, standId := 100,
        bumpOnConflict := some true, bumpedEventId := none,
        changeReason := "mv" }
      (Reachable.init exState (by decide)))


theorem findLayout_id {s : State} {lid : Nat} {L : HangarLayout}
    (h : findLayout s lid = some L) : L.id = lid := by
  have := List.find?_some h
  simpa using this

theorem ptrTransform_self {eid : Nat} (lay hang : Option Nat) {e : MaintenanceEvent}
    (h : e.id = eid) :
    ptrTransform eid lay hang e = { e with layoutId := lay, hangarId := hang } := by
  unfold ptrTransform
  rw [if_pos]
  simpa using h

theorem ptrTransform_other {eid : Nat} (lay hang : Option Nat) {e : MaintenanceEvent}
    (h : e.id ≠ eid) : ptrTransform eid lay hang e = e := by
  unfold ptrTransform
  rw [if_neg]
  simpa using h

theorem placeTransform_self {eid : Nat} (ws we : Int) (lay hang : Option Nat)
    {e : MaintenanceEvent} (h : e.id = eid) :
    placeTransform eid ws we lay hang e
      = { e with startAt := ws, endAt := we, layoutId := lay, hangarId := hang } := by
  unfold placeTransform
  rw [if_pos]
  simpa using h

theorem bumpTransform_self {toBump : List Nat} {e : MaintenanceEvent}
    (h : toBump.contains e.id = true) :
    bumpTransform toBump e
      = { e with hangarId := none, layoutId := none, status := EventStatus.DRAFT } := by
  unfold bumpTransform
  rw [h]
  rfl

theorem activeAt_of_mem_dndConflicts {s : State} {standId mid : Nat}
    {bidOpt : Option Nat} {ws we : Int} {r : StandReservation}
    (h : r ∈ dndConflicts s standId mid bidOpt ws we) :
    activeAt s r.eventId = true := by
  unfold dndConflicts at h
  cases bidOpt with
  | none =>
    have h2 := (List.mem_filter.mp h).2
    unfold conflictWhere at h2
    simp only [Bool.and_eq_true] at h2
    exact h2.2
  | some bid =>
    have h2 := (List.mem_filter.mp h).2
    unfold conflictWhereBumped at h2
    simp only [Bool.and_eq_true] at h2
    exact h2.2

theorem mem_reservations_of_mem_dndConflicts {s : State} {standId mid : Nat}
    {bidOpt : Option Nat} {ws we : Int} {r : StandReservation}
    (h : r ∈ dndConflicts s standId mid bidOpt ws we) : r ∈ s.reservations := by
  unfold dndConflicts at h
  cases bidOpt with
  | none => exact (List.mem_filter.mp h).1
  | some bid => exact (List.mem_filter.mp h).1

theorem toBump_nodup {s : State} {standId mid : Nat} {bidOpt : Option Nat}
    {ws we : Int} (hk : keyUnique s) :
    ((dndConflicts s standId mid bidOpt ws we).map (fun c => c.eventId)).Pairwise
      (fun a b => a ≠ b) := by
  have hk2 : s.reservations.Pairwise (fun a b => a.eventId ≠ b.eventId) := hk
  have h1 : (dndConflicts s standId mid bidOpt ws we).Pairwise
      (fun a b => a.eventId ≠ b.eventId) := by
    unfold dndConflicts
    cases bidOpt with
    | none => exact hk2.sublist (List.filter_sublist _)
    | some bid => exact hk2.sublist (List.filter_sublist _)
  exact List.pairwise_map.mpr h1

theorem bump_audit_unique (ctx : ActorCtx) (mid : Nat) (reason : String)
    {toBump : List Nat} {bid : Nat}
    (hnd : toBump.Pairwise (fun a b => a ≠ b)) (hm : bid ∈ toBump) :
    ((toBump.map (fun b => bumpAuditRecord ctx b mid reason)).filter
      (fun a => a.eventId == bid)).length = 1 := by
  induction toBump with
  | nil => cases hm
  | cons a t ih =>
    rcases List.mem_cons.mp hm with rfl | hmt
    · have hrest : (t.map (fun b => bumpAuditRecord ctx b mid reason)).filter
          (fun a2 => a2.eventId == bid) = [] := by
        rw [List.filter_eq_nil_iff]
        intro x hx
        rcases List.mem_map.mp hx with ⟨b2, hb2, hxe⟩
        have hb2ne : bid ≠ b2 := (List.pairwise_cons.mp hnd).1 b2 hb2
        rw [← hxe]
        simpa using fun hc => hb2ne hc.symm
      simp only [List.map_cons, List.filter_cons]
      rw [if_pos (by simp [bumpAuditRecord] : ((bumpAuditRecord ctx bid mid reason).eventId == bid) = true)]
      simp [hrest]
    · have hane : a ≠ bid := fun hc => by
        rw [hc] at hnd
        exact (List.pairwise_cons.mp hnd).1 bid hmt rfl
      simp only [List.map_cons, List.filter_cons]
      rw [if_neg (by simpa using hane)]
      exact ih (List.pairwise_cons.mp hnd).2 hmt


theorem findEvent_moveWrap (A : State) (R : List StandReservation) (eid : Nat)
    (lay hang : Option Nat) (a : AuditRecord) (x : Nat) :
    findEvent (appendAudit (setEventPointers { A with reservations := R } eid lay hang) a) x
      = (findEvent A x).map (ptrTransform eid lay hang) := by
  have h1 : findEvent (appendAudit (setEventPointers { A with reservations := R } eid lay hang) a) x
      = findEvent (setEventPointers { A with reservations := R } eid lay hang) x :=
    findEvent_congr rfl x
  rw [h1, findEvent_setEventPointers]
  have h2 : findEvent { A with reservations := R } x = findEvent A x := findEvent_congr rfl x
  rw [h2]

theorem findEvent_placeWrap (A : State) (R : List StandReservation) (eid : Nat)
    (ws we : Int) (lay hang : Option Nat) (a : AuditRecord) (x : Nat) :
    findEvent (appendAudit
      { A with
        events := A.events.map (placeTransform eid ws we lay hang)
        reservations := R } a) x
      = (findEvent A x).map (placeTransform eid ws we lay hang) := by
  have h1 : findEvent (appendAudit
      { A with
        events := A.events.map (placeTransform eid ws we lay hang)
        reservations := R } a) x
      = findEvent { A with events := A.events.map (placeTransform eid ws we lay hang) } x :=
    findEvent_congr rfl x
  rw [h1, findEvent_map_of_id (placeTransform_id eid ws we lay hang)]

theorem dndMovePost_moved (s : State) (ctx : ActorCtx) (req : DndMoveReq)
    (event : MaintenanceEvent) (layout : HangarLayout)
    (hev : findEvent s req.eventId = some event) :
    findReservationByEvent (dndMovePost s ctx req event layout) req.eventId
      = some ⟨req.eventId, req.layoutId, req.standId, event.startAt, event.endAt⟩ ∧
    ∃ e2, findEvent (dndMovePost s ctx req event layout) req.eventId = some e2 ∧
      e2.layoutId = some layout.id ∧ e2.hangarId = some layout.hangarId := by
  constructor
  · unfold findReservationByEvent
    rw [dndMovePost_reservations]
    exact find?_replaceOrAppend2 _ _ _ rfl
  · unfold dndMovePost
    dsimp only
    rw [findEvent_moveWrap]
    by_cases hC : ((dndConflicts s req.standId req.eventId req.bumpedEventId
        event.startAt event.endAt).length > 0 && req.bumpOnConflict.getD false) = true
    · simp only [hC, if_true]
      rw [findEvent_applyBump, hev]
      have hid : (bumpTransform ((dndConflicts s req.standId req.eventId req.bumpedEventId
          event.startAt event.endAt).map (fun c => c.eventId)) event).id = req.eventId := by
        rw [bumpTransform_id]
        exact findEvent_id hev
      have hval := ptrTransform_self (some layout.id) (some layout.hangarId) hid
      exact ⟨_, rfl, by rw [hval], by rw [hval]⟩
    · have hC2 : ((dndConflicts s req.standId req.eventId req.bumpedEventId
          event.startAt event.endAt).length > 0 && req.bumpOnConflict.getD false) = false := by
        simpa using hC
      simp only [hC2, Bool.false_eq_true, if_false]
      rw [hev]
      have hval := ptrTransform_self (some layout.id) (some layout.hangarId)
        (findEvent_id hev)
      exact ⟨_, rfl, by rw [hval], by rw [hval]⟩

theorem dndPlacePost_moved (s : State) (ctx : ActorCtx) (req : DndPlaceReq)
    (event : MaintenanceEvent) (layout : HangarLayout)
    (hev : findEvent s req.eventId = some event) :
    findReservationByEvent (dndPlacePost s ctx req event layout) req.eventId
      = some ⟨req.eventId, req.layoutId, req.standId, req.startAt, req.endAt⟩ ∧
    ∃ e2, findEvent (dndPlacePost s ctx req event layout) req.eventId = some e2 ∧
      e2.startAt = req.startAt ∧ e2.endAt = req.endAt ∧
      e2.layoutId = some layout.id ∧ e2.hangarId = some layout.hangarId := by
  constructor
  · unfold findReservationByEvent
    rw [dndPlacePost_reservations]
    exact find?_replaceOrAppend2 _ _ _ rfl
  · unfold dndPlacePost
    dsimp only
    rw [findEvent_placeWrap]
    by_cases hC : ((dndConflicts s req.standId req.eventId req.bumpedEventId
        req.startAt req.endAt).length > 0 && req.bumpOnConflict.getD false) = true
    · simp only [hC, if_true]
      rw [findEvent_applyBump, hev]
      have hid : (bumpTransform ((dndConflicts s req.standId req.eventId req.bumpedEventId
          req.startAt req.endAt).map (fun c => c.eventId)) event).id = req.eventId := by
        rw [bumpTransform_id]
        exact findEvent_id hev
      have hval := placeTransform_self req.startAt req.endAt (some layout.id)
        (some layout.hangarId) hid
      exact ⟨_, rfl, by rw [hval], by rw [hval], by rw [hval], by rw [hval]⟩
    · have hC2 : ((dndConflicts s req.standId req.eventId req.bumpedEventId
          req.startAt req.endAt).length > 0 && req.bumpOnConflict.getD false) = false := by
        simpa using hC
      simp only [hC2, Bool.false_eq_true, if_false]
      rw [hev]
      have hval := placeTransform_self req.startAt req.endAt (some layout.id)
        (some layout.hangarId) (findEvent_id hev)
      exact ⟨_, rfl, by rw [hval], by rw [hval], by rw [hval], by rw [hval]⟩

theorem dndMovePost_bumped (s : State) (ctx : ActorCtx) (req : DndMoveReq)
    (event : MaintenanceEvent) (layout : HangarLayout) (bid : Nat)
    (hne : bid ≠ req.eventId)
    (hC : ((dndConflicts s req.standId req.eventId req.bumpedEventId
      event.startAt event.endAt).length > 0 && req.bumpOnConflict.getD false) = true)
    (hbid : bid ∈ (dndConflicts s req.standId req.eventId req.bumpedEventId
      event.startAt event.endAt).map (fun c => c.eventId)) :
    findReservationByEvent (dndMovePost s ctx req event layout) bid = none ∧
    ∃ e2, findEvent (dndMovePost s ctx req event layout) bid = some e2 ∧
      e2.hangarId = none ∧ e2.layoutId = none ∧ e2.status = EventStatus.DRAFT := by
  have hev0 : ∃ e0, findEvent s bid = some e0 := by
    rcases List.mem_map.mp hbid with ⟨c, hc, hce⟩
    have hact := activeAt_of_mem_dndConflicts hc
    rw [hce] at hact
    obtain ⟨e0, he0, -⟩ := (activeAt_eq_true_iff s bid).mp hact
    exact ⟨e0, he0⟩
  obtain ⟨e0, he0⟩ := hev0
  constructor
  · unfold findReservationByEvent
    rw [dndMovePost_reservations]
    simp only [hC, if_true]
    rw [List.find?_eq_none]
    intro x hx
    rcases mem_replaceOrAppend hx with hxn | ⟨hxf, -⟩
    · rw [hxn]
      simpa using fun hcl => hne hcl.symm
    · have hxb := (List.mem_filter.mp hxf).2
      have hnotin : x.eventId ∉ (dndConflicts s req.standId req.eventId req.bumpedEventId
          event.startAt event.endAt).map (fun c => c.eventId) := by
        simpa using hxb
      intro hcl
      apply hnotin
      have hxe : x.eventId = bid := by simpa using hcl
      rw [hxe]
      exact hbid
  · unfold dndMovePost
    dsimp only
    rw [findEvent_moveWrap]
    simp only [hC, if_true]
    rw [findEvent_applyBump, he0]
    have hid0 : e0.id = bid := findEvent_id he0
    have hcont : ((dndConflicts s req.standId req.eventId req.bumpedEventId
        event.startAt event.endAt).map (fun c => c.eventId)).contains e0.id = true := by
      rw [hid0]
      simpa using hbid
    have hb := bumpTransform_self hcont
    have hidb : (bumpTransform ((dndConflicts s req.standId req.eventId req.bumpedEventId
        event.startAt event.endAt).map (fun c => c.eventId)) e0).id = bid := by
      rw [bumpTransform_id]
      exact hid0
    have hptr := ptrTransform_other (some layout.id) (some layout.hangarId)
      (by rw [hidb]; exact hne)
    exact ⟨_, rfl, by rw [hptr, hb], by rw [hptr, hb], by rw [hptr, hb]⟩

theorem dndPlacePost_bumped (s : State) (ctx : ActorCtx) (req : DndPlaceReq)
    (event : MaintenanceEvent) (layout : HangarLayout) (bid : Nat)
    (hne : bid ≠ req.eventId)
    (hC : ((dndConflicts s req.standId req.eventId req.bumpedEventId
      req.startAt req.endAt).length > 0 && req.bumpOnConflict.getD false) = true)
    (hbid : bid ∈ (dndConflicts s req.standId req.eventId req.bumpedEventId
      req.startAt req.endAt).map (fun c => c.eventId)) :
    findReservationByEvent (dndPlacePost s ctx req event layout) bid = none ∧
    ∃ e2, findEvent (dndPlacePost s ctx req event layout) bid = some e2 ∧
      e2.hangarId = none ∧ e2.layoutId = none ∧ e2.status = EventStatus.DRAFT := by
  have hev0 : ∃ e0, findEvent s bid = some e0 := by
    rcases List.mem_map.mp hbid with ⟨c, hc, hce⟩
    have hact := activeAt_of_mem_dndConflicts hc
    rw [hce] at hact
    obtain ⟨e0, he0, -⟩ := (activeAt_eq_true_iff s bid).mp hact
    exact ⟨e0, he0⟩
  obtain ⟨e0, he0⟩ := hev0
  constructor
  · unfold findReservationByEvent
    rw [dndPlacePost_reservations]
    simp only [hC, if_true]
    rw [List.find?_eq_none]
    intro x hx
    rcases mem_replaceOrAppend hx with hxn | ⟨hxf, -⟩
    · rw [hxn]
      simpa using fun hcl => hne hcl.symm
    · have hxb := (List.mem_filter.mp hxf).2
      have hnotin : x.eventId ∉ (dndConflicts s req.standId req.eventId req.bumpedEventId
          req.startAt req.endAt).map (fun c => c.eventId) := by
        simpa using hxb
      intro hcl
      apply hnotin
      have hxe : x.eventId = bid := by simpa using hcl
      rw [hxe]
      exact hbid
  · unfold dndPlacePost
    dsimp only
    rw [findEvent_placeWrap]
    simp only [hC, if_true]
    rw [findEvent_applyBump, he0]
    have hid0 : e0.id = bid := findEvent_id he0
    have hcont : ((dndConflicts s req.standId req.eventId req.bumpedEventId
        req.startAt req.endAt).map (fun c => c.eventId)).contains e0.id = true := by
      rw [hid0]
      simpa using hbid
    have hb := bumpTransform_self hcont
    have hidb : (bumpTransform ((dndConflicts s req.standId req.eventId req.bumpedEventId
        req.startAt req.endAt).map (fun c => c.eventId)) e0).id = bid := by
      rw [bumpTransform_id]
      exact hid0
    have hptr : placeTransform req.eventId req.startAt req.endAt
        (some layout.id) (some layout.hangarId)
        (bumpTransform ((dndConflicts s req.standId req.eventId req.bumpedEventId
          req.startAt req.endAt).map (fun c => c.eventId)) e0)
        = bumpTransform ((dndConflicts s req.standId req.eventId req.bumpedEventId
          req.startAt req.endAt).map (fun c => c.eventId)) e0 := by
      unfold placeTransform
      rw [if_neg]
      rw [hidb]
      simpa using hne
    exact ⟨_, rfl, by rw [hptr, hb], by rw [hptr, hb], by rw [hptr, hb]⟩


/-- Claim C4 (amended): after every successful placement operation the
moved event's denormalized pointers match its reservation (layoutId
equals the reservation's layout, hangarId equals the hangar owning that
layout), and bumped events get null pointers together with no
reservation; unassignReservation however does not touch the event row at
all, so after an unassign the pointers keep their previous values instead
of becoming null (see the counterexample). -/
theorem claim4_pointer_sync :
    (∀ s ctx req res s2, assignReservation s ctx req = (Except.ok res, s2) →
      ∃ layout, findLayout s req.layoutId = some layout ∧ layout.id = res.layoutId ∧
      ∃ e2, findEvent s2 req.eventId = some e2 ∧
        e2.layoutId = some res.layoutId ∧ e2.hangarId = some layout.hangarId ∧
        findReservationByEvent s2 req.eventId = some res) ∧
    (∀ s ctx roles req res b s2, dndMove s ctx roles req = (Except.ok (res, b), s2) →
      (∃ layout, findLayout s req.layoutId = some layout ∧ layout.id = res.layoutId ∧
       ∃ e2, findEvent s2 req.eventId = some e2 ∧
         e2.layoutId = some res.layoutId ∧ e2.hangarId = some layout.hangarId ∧
         findReservationByEvent s2 req.eventId = some res) ∧
      (∀ bid ∈ b, bid ≠ req.eventId →
        findReservationByEvent s2 bid = none ∧
        ∃ e2, findEvent s2 bid = some e2 ∧ e2.hangarId = none ∧ e2.layoutId = none)) ∧
    (∀ s ctx roles req res b s2, dndPlace s ctx roles req = (Except.ok (res, b), s2) →
      (∃ layout, findLayout s req.layoutId = some layout ∧ layout.id = res.layoutId ∧
       ∃ e2, findEvent s2 req.eventId = some e2 ∧
         e2.layoutId = some res.layoutId ∧ e2.hangarId = some layout.hangarId ∧
         findReservationByEvent s2 req.eventId = some res) ∧
      (∀ bid ∈ b, bid ≠ req.eventId →
        findReservationByEvent s2 bid = none ∧
        ∃ e2, findEvent s2 bid = some e2 ∧ e2.hangarId = none ∧ e2.layoutId = none)) ∧
    (∀ s ctx eid, (unassignReservation s ctx eid).2.events = s.events) := by
  refine ⟨?_, ?_, ?_, ?_⟩
  · intro s ctx req res s2 h
    obtain ⟨event, hev, layout, hlay, hresEq, hconf, rsn, hpost⟩ := assign_ok_inv h
    have hlid : layout.id = res.layoutId := by
      rw [hresEq]
      exact findLayout_id hlay
    refine ⟨layout, hlay, hlid, ?_⟩
    rw [hpost]
    unfold assignWriteState
    have hfel := findEvent_moveWrap s
      (replaceOrAppend s.reservations (assignNewRes req event)) req.eventId
      (some layout.id) (some layout.hangarId)
    rw [hfel, hev]
    have hval := ptrTransform_self (some layout.id) (some layout.hangarId)
      (findEvent_id hev)
    refine ⟨_, rfl, ?_, by rw [hval], ?_⟩
    · rw [hval]
      dsimp only
      rw [hlid]
    · unfold findReservationByEvent
      rw [hresEq]
      exact find?_replaceOrAppend2 _ _ _ rfl
  · intro s ctx roles req res b s2 h
    obtain ⟨event, hev, layout, hlay, hrest⟩ := dndMove_ok_inv h
    dsimp only at hrest
    obtain ⟨hguard, hres, hb, hpost⟩ := hrest
    constructor
    · have hlid : layout.id = res.layoutId := by
        rw [hres]
        exact findLayout_id hlay
      refine ⟨layout, hlay, hlid, ?_⟩
      rw [hpost]
      obtain ⟨hrsv, e2, he2, hl, hh⟩ := dndMovePost_moved s ctx req event layout hev
      refine ⟨e2, he2, ?_, hh, ?_⟩
      · rw [hl, hlid]
      · rw [hrsv, hres]
    · intro bid hbid hne
      by_cases hC : ((dndConflicts s req.standId req.eventId req.bumpedEventId
          event.startAt event.endAt).length > 0 && req.bumpOnConflict.getD false) = true
      · rw [hb] at hbid
        simp only [hC, if_true] at hbid
        rw [hpost]
        obtain ⟨h1, e2, he2, hh, hl, -⟩ :=
          dndMovePost_bumped s ctx req event layout bid hne hC hbid
        exact ⟨h1, e2, he2, hh, hl⟩
      · have hC2 : ((dndConflicts s req.standId req.eventId req.bumpedEventId
            event.startAt event.endAt).length > 0 && req.bumpOnConflict.getD false) = false := by
          simpa using hC
        rw [hb] at hbid
        simp only [hC2, Bool.false_eq_true, if_false] at hbid
        cases hbid
  · intro s ctx roles req res b s2 h
    obtain ⟨hwin, event, hev, layout, hlay, hrest⟩ := dndPlace_ok_inv h
    dsimp only at hrest
    obtain ⟨hguard, hres, hb, hpost⟩ := hrest
    constructor
    · have hlid : layout.id = res.layoutId := by
        rw [hres]
        exact findLayout_id hlay
      refine ⟨layout, hlay, hlid, ?_⟩
      rw [hpost]
      obtain ⟨hrsv, e2, he2, -, -, hl, hh⟩ := dndPlacePost_moved s ctx req event layout hev
      refine ⟨e2, he2, ?_, hh, ?_⟩
      · rw [hl, hlid]
      · rw [hrsv, hres]
    · intro bid hbid hne
      by_cases hC : ((dndConflicts s req.standId req.eventId req.bumpedEventId
          req.startAt req.endAt).length > 0 && req.bumpOnConflict.getD false) = true
      · rw [hb] at hbid
        simp only [hC, if_true] at hbid
        rw [hpost]
        obtain ⟨h1, e2, he2, hh, hl, -⟩ :=
          dndPlacePost_bumped s ctx req event layout bid hne hC hbid
        exact ⟨h1, e2, he2, hh, hl⟩
      · have hC2 : ((dndConflicts s req.standId req.eventId req.bumpedEventId
            req.startAt req.endAt).length > 0 && req.bumpOnConflict.getD false) = false := by
          simpa using hC
        rw [hb] at hbid
        simp only [hC2, Bool.false_eq_true, if_false] at hbid
        cases hbid
  · intro s ctx eid
    rcases unassign_state_cases s ctx eid with ⟨hnone, heq⟩ | ⟨existing, hf, heq⟩
    · rw [heq]
    · rw [heq]
      rfl

/-- Witness for C4: a concrete successful first assignment of event 3
yields matching event pointers and reservation. -/
theorem claim4_pointer_sync_witness :
    ∃ layout, findLayout exState exAssignReq3.layoutId = some layout ∧
      layout.id = exRes3.layoutId ∧
    ∃ e2, findEvent (assignReservation exState exCtx exAssignReq3).2
        exAssignReq3.eventId = some e2 ∧
      e2.layoutId = some exRes3.layoutId ∧ e2.hangarId = some layout.hangarId ∧
      findReservationByEvent (assignReservation exState exCtx exAssignReq3).2
        exAssignReq3.eventId = some exRes3 :=
  claim4_pointer_sync.1 exState exCtx exAssignReq3 exRes3 _ (by rfl)

/-- Counterexample to C4 as stated: after unassigning event 1 the event
has no reservation, yet its hangar/layout pointers are still some 5 /
some 10 rather than null. -/
theorem claim4_counterexample :
    findReservationByEvent (unassignReservation exState exCtx 1).2 1 = none ∧
    ∃ e, findEvent (unassignReservation exState exCtx 1).2 1 = some e ∧
      e.layoutId = some 10 ∧ e.hangarId = some 5 :=
  ⟨rfl, ⟨exEvent1, rfl, rfl, rfl⟩⟩


theorem mem_dndConflicts_props {s : State} {standId mid : Nat} {bidOpt : Option Nat}
    {ws we : Int} {r : StandReservation}
    (h : r ∈ dndConflicts s standId mid bidOpt ws we) :
    r ∈ s.reservations ∧ r.standId = standId ∧ r.startAt < we ∧ ws < r.endAt ∧
      activeAt s r.eventId = true := by
  unfold dndConflicts at h
  cases bidOpt with
  | none =>
    obtain ⟨hm, hp⟩ := List.mem_filter.mp h
    rw [conflictWhere_eq_true_iff] at hp
    exact ⟨hm, hp.1, hp.2.2.1, hp.2.2.2.1, hp.2.2.2.2⟩
  | some bid =>
    obtain ⟨hm, hp⟩ := List.mem_filter.mp h
    unfold conflictWhereBumped at hp
    simp only [Bool.and_eq_true, beq_iff_eq, decide_eq_true_eq] at hp
    exact ⟨hm, hp.1.1.1.1, hp.1.1.2, hp.1.2, hp.2⟩

theorem toBump_ne_moving {s : State} {standId mid : Nat} {bidOpt : Option Nat}
    {ws we : Int} (hbid : bidOpt ≠ some mid) :
    ∀ b2 ∈ (dndConflicts s standId mid bidOpt ws we).map (fun c => c.eventId),
      b2 ≠ mid := by
  intro b2 hb2
  rcases List.mem_map.mp hb2 with ⟨c, hc, hce⟩
  unfold dndConflicts at hc
  cases hbo : bidOpt with
  | none =>
    rw [hbo] at hc
    have hp := (List.mem_filter.mp hc).2
    rw [conflictWhere_eq_true_iff] at hp
    rw [← hce]
    exact hp.2.1
  | some bid =>
    rw [hbo] at hc
    rw [hbo] at hbid
    have hp := (List.mem_filter.mp hc).2
    unfold conflictWhereBumped at hp
    simp only [Bool.and_eq_true, beq_iff_eq, decide_eq_true_eq] at hp
    have hceq : c.eventId = bid := hp.1.1.1.2
    rw [← hce, hceq]
    intro hcl
    exact hbid (by rw [hcl])

/-- Claim C6 (amended): when dndMove or dndPlace bumps conflicting
reservations, then for every displaced event (other than the moving event
itself) the reservation row is deleted, the owning event's hangar and
layout pointers become null and its status is forced to DRAFT, and
exactly one new audit record is written for it; that record has action
UPDATE, carries the move's change reason and a payload naming the moving
event as the cause (`bumpedByEventId`) and the cleared new state — but it
does NOT record the displaced event's prior placement (see the
counterexample). -/
theorem claim6_bump_effects :
    (∀ s ctx roles req res b s2, keyUnique s →
      dndMove s ctx roles req = (Except.ok (res, b), s2) →
      ∀ bid ∈ b, bid ≠ req.eventId →
        findReservationByEvent s2 bid = none ∧
        (∃ e2, findEvent s2 bid = some e2 ∧ e2.hangarId = none ∧ e2.layoutId = none ∧
          e2.status = EventStatus.DRAFT) ∧
        (s2.audits.filter (fun a => a.eventId == bid)).length
          = (s.audits.filter (fun a => a.eventId == bid)).length + 1 ∧
        (∀ a ∈ s2.audits, a.eventId = bid → a ∈ s.audits ∨
          (a.action = EventAuditAction.UPDATE ∧ a.reason = some req.changeReason ∧
            a.changes
              = AuditChanges.dndBumped req.eventId none EventStatus.DRAFT none none))) ∧
    (∀ s ctx roles req res b s2, keyUnique s →
      dndPlace s ctx roles req = (Except.ok (res, b), s2) →
      ∀ bid ∈ b, bid ≠ req.eventId →
        findReservationByEvent s2 bid = none ∧
        (∃ e2, findEvent s2 bid = some e2 ∧ e2.hangarId = none ∧ e2.layoutId = none ∧
          e2.status = EventStatus.DRAFT) ∧
        (s2.audits.filter (fun a => a.eventId == bid)).length
          = (s.audits.filter (fun a => a.eventId == bid)).length + 1 ∧
        (∀ a ∈ s2.audits, a.eventId = bid → a ∈ s.audits ∨
          (a.action = EventAuditAction.UPDATE ∧ a.reason = some req.changeReason ∧
            a.changes
              = AuditChanges.dndBumped req.eventId none EventStatus.DRAFT none none))) := by
  constructor
  · intro s ctx roles req res b s2 hk h bid hbid hne
    obtain ⟨event, hev, layout, hlay, hrest⟩ := dndMove_ok_inv h
    dsimp only at hrest
    obtain ⟨hguard, hres, hb, hpost⟩ := hrest
    by_cases hC : ((dndConflicts s req.standId req.eventId req.bumpedEventId
        event.startAt event.endAt).length > 0 && req.bumpOnConflict.getD false) = true
    · rw [hb] at hbid
      simp only [hC, if_true] at hbid
      obtain ⟨h1, h2⟩ := dndMovePost_bumped s ctx req event layout bid hne hC hbid
      subst hpost
      refine ⟨h1, h2, ?_, ?_⟩
      · rw [dndMovePost_audits]
        simp only [hC, if_true]
        rw [List.filter_append, List.filter_append, List.length_append, List.length_append]
        rw [bump_audit_unique ctx req.eventId req.changeReason (toBump_nodup hk) hbid]
        have hmv : (req.eventId == bid) = false := by
          simp only [beq_eq_false_iff_ne]
          exact fun hc => hne hc.symm
        simp only [List.filter_cons, hmv, Bool.false_eq_true, if_false, List.filter_nil,
          List.length_nil]
      · intro a ha hae
        rw [dndMovePost_audits] at ha
        simp only [hC, if_true] at ha
        rcases List.mem_append.mp ha with hmem | hmem
        · rcases List.mem_append.mp hmem with hmem2 | hmem2
          · exact Or.inl hmem2
          · right
            rcases List.mem_map.mp hmem2 with ⟨b2, hb2, hba⟩
            rw [← hba]
            exact ⟨rfl, rfl, rfl⟩
        · have hmv : a.eventId = req.eventId := by
            have := List.mem_singleton.mp hmem
            rw [this]
          rw [hae] at hmv
          exact absurd hmv hne
    · have hC2 : ((dndConflicts s req.standId req.eventId req.bumpedEventId
          event.startAt event.endAt).length > 0 && req.bumpOnConflict.getD false) = false := by
        simpa using hC
      rw [hb] at hbid
      simp only [hC2, Bool.false_eq_true, if_false] at hbid
      cases hbid
  · intro s ctx roles req res b s2 hk h bid hbid hne
    obtain ⟨hwin, event, hev, layout, hlay, hrest⟩ := dndPlace_ok_inv h
    dsimp only at hrest
    obtain ⟨hguard, hres, hb, hpost⟩ := hrest
    by_cases hC : ((dndConflicts s req.standId req.eventId req.bumpedEventId
        req.startAt req.endAt).length > 0 && req.bumpOnConflict.getD false) = true
    · rw [hb] at hbid
      simp only [hC, if_true] at hbid
      obtain ⟨h1, h2⟩ := dndPlacePost_bumped s ctx req event layout bid hne hC hbid
      subst hpost
      refine ⟨h1, h2, ?_, ?_⟩
      · rw [dndPlacePost_audits]
        simp only [hC, if_true]
        rw [List.filter_append, List.filter_append, List.length_append, List.length_append]
        rw [bump_audit_unique ctx req.eventId req.changeReason (toBump_nodup hk) hbid]
        have hmv : (req.eventId == bid) = false := by
          simp only [beq_eq_false_iff_ne]
          exact fun hc => hne hc.symm
        simp only [List.filter_cons, hmv, Bool.false_eq_true, if_false, List.filter_nil,
          List.length_nil]
      · intro a ha hae
        rw [dndPlacePost_audits] at ha
        simp only [hC, if_true] at ha
        rcases List.mem_append.mp ha with hmem | hmem
        · rcases List.mem_append.mp hmem with hmem2 | hmem2
          · exact Or.inl hmem2
          · right
            rcases List.mem_map.mp hmem2 with ⟨b2, hb2, hba⟩
            rw [← hba]
            exact ⟨rfl, rfl, rfl⟩
        · have hmv : a.eventId = req.eventId := by
            have := List.mem_singleton.mp hmem
            rw [this]
          rw [hae] at hmv
          exact absurd hmv hne
    · have hC2 : ((dndConflicts s req.standId req.eventId req.bumpedEventId
          req.startAt req.endAt).length > 0 && req.bumpOnConflict.getD false) = false := by
        simpa using hC
      rw [hb] at hbid
      simp only [hC2, Bool.false_eq_true, if_false] at hbid
      cases hbid

/-- Witness for C6: a concrete bump-all dnd-move of event 2 onto stand
100 displaces event 1: its reservation is gone, its pointers null, its
status DRAFT, and exactly one new audit record for it was written with
the dndBumped payload. -/
theorem claim6_bump_effects_witness :
    findReservationByEvent (dndMove exState exCtx ["ADMIN"] exMoveReq).2 1 = none ∧
    (∃ e2, findEvent (dndMove exState exCtx ["ADMIN"] exMoveReq).2 1 = some e2 ∧
      e2.hangarId = none ∧ e2.layoutId = none ∧ e2.status = EventStatus.DRAFT) ∧
    ((dndMove exState exCtx ["ADMIN"] exMoveReq).2.audits.filter
      (fun a => a.eventId == 1)).length
      = (exState.audits.filter (fun a => a.eventId == 1)).length + 1 ∧
    (∀ a ∈ (dndMove exState exCtx ["ADMIN"] exMoveReq).2.audits, a.eventId = 1 →
      a ∈ exState.audits ∨
      (a.action = EventAuditAction.UPDATE ∧ a.reason = some exMoveReq.changeReason ∧
        a.changes = AuditChanges.dndBumped exMoveReq.eventId none EventStatus.DRAFT
          none none)) :=
  claim6_bump_effects.1 exState exCtx ["ADMIN"] exMoveReq ⟨2, 10, 100, 0, 10⟩ [1] _
    (by decide) (by rfl) 1 (by decide) (by decide)

/-- Counterexample to C6 as stated: in the same concrete bump, the single
audit record written for displaced event 1 contains NO reservation
snapshot at all in its payload — in particular not the prior placement
(layout 10, stand 100, [0,10)) that event 1 held before being bumped. -/
theorem claim6_counterexample :
    findReservationByEvent exState 1 = some exRes1 ∧
    (dndMove exState exCtx ["ADMIN"] exMoveReq).1
      = Except.ok (⟨2, 10, 100, 0, 10⟩, [1]) ∧
    ((dndMove exState exCtx ["ADMIN"] exMoveReq).2.audits.filter
        (fun a => a.eventId == 1))
      = [{ eventId := 1
           action := EventAuditAction.UPDATE
           actor := "browser"
           reason := some "mv"
           changes := AuditChanges.dndBumped 2 none EventStatus.DRAFT none none }] ∧
    (AuditChanges.dndBumped 2 none EventStatus.DRAFT none none).resSnapshots = [] ∧
    resSnapshot exRes1 = ⟨10, 100, 0, 10⟩ :=
  ⟨rfl, rfl, rfl, rfl, rfl⟩


/-- Claim C9 (amended): dndPlace rejects endAt ≤ startAt with a
Validation error before any write; on success it updates the event's own
window to the supplied one, upserts the reservation with the same window,
computes conflicts on the target stand against the NEW supplied window
(every bumped event had a reservation overlapping the new window; in
bump-all mode every conflicting reservation is bumped), and — provided
the caller did not pass bumpedEventId equal to the moved event's own id —
writes exactly one new audit record for the moved event, of kind UPDATE,
capturing both the time change and the placement change.  (With
bumpedEventId = eventId the moved event can bump itself and receive a
second UPDATE record; see the counterexample.) -/
theorem claim9_dndPlace :
    (∀ s ctx roles req, (roles.contains "ADMIN" || roles.contains "PLANNER") = true →
      req.endAt ≤ req.startAt →
      dndPlace s ctx roles req
        = (Except.error (ApiError.validationError "endAt must be after startAt"), s)) ∧
    (∀ s ctx roles req res b s2,
      dndPlace s ctx roles req = (Except.ok (res, b), s2) →
      req.bumpedEventId ≠ some req.eventId →
      res = ⟨req.eventId, req.layoutId, req.standId, req.startAt, req.endAt⟩ ∧
      (∃ e2, findEvent s2 req.eventId = some e2 ∧
        e2.startAt = req.startAt ∧ e2.endAt = req.endAt) ∧
      findReservationByEvent s2 req.eventId = some res ∧
      (∀ bid ∈ b, ∃ cr ∈ s.reservations, cr.eventId = bid ∧ cr.standId = req.standId ∧
        cr.startAt < req.endAt ∧ req.startAt < cr.endAt ∧ activeAt s cr.eventId = true) ∧
      (req.bumpedEventId = none →
        ∀ cr ∈ s.reservations,
          conflictWhere s req.standId req.eventId req.startAt req.endAt cr = true →
          cr.eventId ∈ b) ∧
      ((s2.audits.filter (fun a => a.eventId == req.eventId)).length
        = (s.audits.filter (fun a => a.eventId == req.eventId)).length + 1) ∧
      (∃ event layout, findEvent s req.eventId = some event ∧
        findLayout s req.layoutId = some layout ∧
        ∀ a ∈ s2.audits, a.eventId = req.eventId → a ∈ s.audits ∨
          (a.action = EventAuditAction.UPDATE ∧ a.reason = some req.changeReason ∧
            a.changes = AuditChanges.dndPlaceUpdate (req.bumpOnConflict.getD false) b
              ⟨event.startAt, event.endAt, event.hangarId, event.layoutId,
                (findReservationByEvent s req.eventId).map resSnapshot⟩
              ⟨req.startAt, req.endAt, some layout.hangarId, some layout.id,
                some (resSnapshot res)⟩))) := by
  constructor
  · intro s ctx roles req hroles hwin
    unfold dndPlace
    simp only [hroles, Bool.not_true, Bool.false_eq_true, if_false]
    rw [if_pos hwin]
  · intro s ctx roles req res b s2 h hnotself
    obtain ⟨hwin, event, hev, layout, hlay, hrest⟩ := dndPlace_ok_inv h
    dsimp only at hrest
    obtain ⟨hguard, hres, hb, hpost⟩ := hrest
    subst hpost
    obtain ⟨hrsv, e2, he2, hsa, hea, hl, hh⟩ := dndPlacePost_moved s ctx req event layout hev
    refine ⟨hres, ⟨e2, he2, hsa, hea⟩, ?_, ?_, ?_, ?_, ?_⟩
    · rw [hres]
      exact hrsv
    · intro bid hbid
      by_cases hC : ((dndConflicts s req.standId req.eventId req.bumpedEventId
          req.startAt req.endAt).length > 0 && req.bumpOnConflict.getD false) = true
      · rw [hb] at hbid
        simp only [hC, if_true] at hbid
        rcases List.mem_map.mp hbid with ⟨c, hc, hce⟩
        obtain ⟨hcm, hcs, hcl, hcg, hca⟩ := mem_dndConflicts_props hc
        exact ⟨c, hcm, hce, hcs, hcl, hcg, hca⟩
      · have hC2 : ((dndConflicts s req.standId req.eventId req.bumpedEventId
            req.startAt req.endAt).length > 0 && req.bumpOnConflict.getD false) = false := by
          simpa using hC
        rw [hb] at hbid
        simp only [hC2, Bool.false_eq_true, if_false] at hbid
        cases hbid
    · intro hbn cr hcr hcw
      have hcc : cr ∈ dndConflicts s req.standId req.eventId req.bumpedEventId
          req.startAt req.endAt := by
        rw [hbn]
        unfold dndConflicts
        exact List.mem_filter.mpr ⟨hcr, hcw⟩
      have hlen : (dndConflicts s req.standId req.eventId req.bumpedEventId
          req.startAt req.endAt).length > 0 :=
        List.length_pos.mpr (List.ne_nil_of_mem hcc)
      have hbump : req.bumpOnConflict.getD false = true := by
        rcases Bool.eq_false_or_eq_true (req.bumpOnConflict.getD false) with hq | hq
        · exact hq
        · exfalso
          rw [hq] at hguard
          simp only [Bool.not_false, Bool.and_true] at hguard
          rw [decide_eq_false_iff_not] at hguard
          exact hguard hlen
      have hC : ((dndConflicts s req.standId req.eventId req.bumpedEventId
          req.startAt req.endAt).length > 0 && req.bumpOnConflict.getD false) = true := by
        rw [hbump]
        simp only [Bool.and_true]
        exact decide_eq_true hlen
      rw [hb]
      simp only [hC, if_true]
      exact List.mem_map.mpr ⟨cr, hcc, rfl⟩
    · by_cases hC : ((dndConflicts s req.standId req.eventId req.bumpedEventId
          req.startAt req.endAt).length > 0 && req.bumpOnConflict.getD false) = true
      · rw [dndPlacePost_audits]
        simp only [hC, if_true]
        rw [List.filter_append, List.filter_append, List.length_append, List.length_append]
        have hzero : ((((dndConflicts s req.standId req.eventId req.bumpedEventId
            req.startAt req.endAt).map (fun c => c.eventId)).map
            (fun b2 => bumpAuditRecord ctx b2 req.eventId req.changeReason)).filter
            (fun a => a.eventId == req.eventId)) = [] := by
          rw [List.filter_eq_nil_iff]
          intro x hx
          rcases List.mem_map.mp hx with ⟨b2, hb2, hxa⟩
          have hb2ne : b2 ≠ req.eventId := toBump_ne_moving hnotself b2 hb2
          rw [← hxa]
          simp only [bumpAuditRecord, beq_iff_eq]
          exact hb2ne
        rw [hzero]
        simp
      · have hC2 : ((dndConflicts s req.standId req.eventId req.bumpedEventId
            req.startAt req.endAt).length > 0 && req.bumpOnConflict.getD false) = false := by
          simpa using hC
        rw [dndPlacePost_audits]
        simp only [hC2, Bool.false_eq_true, if_false, List.map_nil, List.nil_append]
        rw [List.filter_append, List.length_append]
        simp
    · refine ⟨event, layout, hev, hlay, ?_⟩
      intro a ha hae
      rw [dndPlacePost_audits] at ha
      by_cases hC : ((dndConflicts s req.standId req.eventId req.bumpedEventId
          req.startAt req.endAt).length > 0 && req.bumpOnConflict.getD false) = true
      · simp only [hC, if_true] at ha
        rcases List.mem_append.mp ha with hmem | hmem
        · rcases List.mem_append.mp hmem with hmem2 | hmem2
          · exact Or.inl hmem2
          · exfalso
            rcases List.mem_map.mp hmem2 with ⟨b2, hb2, hba⟩
            have hb2ne : b2 ≠ req.eventId := toBump_ne_moving hnotself b2 hb2
            rw [← hba] at hae
            exact hb2ne hae
        · right
          have haR := List.mem_singleton.mp hmem
          rw [haR, hres, hb]
          simp [hC]
      · have hC2 : ((dndConflicts s req.standId req.eventId req.bumpedEventId
            req.startAt req.endAt).length > 0 && req.bumpOnConflict.getD false) = false := by
          simpa using hC
        simp only [hC2, Bool.false_eq_true, if_false, List.map_nil, List.append_nil] at ha
        rcases List.mem_append.mp ha with hmem | hmem
        · exact Or.inl hmem
        · right
          have haR := List.mem_singleton.mp hmem
          rw [haR, hres, hb]
          simp [hC2]

/-- Witness for C9: the validation rejection at a concrete inverted
window, and the committed reservation of a concrete successful
dnd-place of event 3 onto stand 300 over [40,50). -/
theorem claim9_dndPlace_witness :
    dndPlace exState exCtx ["ADMIN"]
        { eventId := 1, layoutId := 10, standId := 100, startAt := 10, endAt := 5,
          bumpOnConflict := none, bumpedEventId := none, changeReason := "x" }
      = (Except.error (ApiError.validationError "endAt must be after startAt"), exState) ∧
    findReservationByEvent (dndPlace exState exCtx ["ADMIN"] exPlaceReq).2 3
      = some ⟨3, 10, 300, 40, 50⟩ :=
  ⟨claim9_dndPlace.1 exState exCtx ["ADMIN"]
      { eventId := 1, layoutId := 10, standId := 100, startAt := 10, endAt := 5,
        bumpOnConflict := none, bumpedEventId := none, changeReason := "x" }
      (by decide) (by decide),
    (claim9_dndPlace.2 exState exCtx ["ADMIN"] exPlaceReq ⟨3, 10, 300, 40, 50⟩ [] _
      (by rfl) (by decide)).2.2.1⟩

/-- Counterexample to C9 as stated: a dnd-place that passes bumpedEventId
equal to the moved event's own id (event 1, whose own reservation on the
target stand overlaps the new window) succeeds and writes TWO audit
records of kind UPDATE for the moved event — the self-bump displacement
record plus the move record — not exactly one. -/
theorem claim9_counterexample :
    (dndPlace exState exCtx ["ADMIN"]
        { eventId := 1, layoutId := 10, standId := 100, startAt := 5, endAt := 15,
          bumpOnConflict := some true, bumpedEventId := some 1,
          changeReason := "rs" }).1
      = Except.ok (⟨1, 10, 100, 5, 15⟩, [1]) ∧
    ((dndPlace exState exCtx ["ADMIN"]
        { eventId := 1, layoutId := 10, standId := 100, startAt := 5, endAt := 15,
          bumpOnConflict := some true, bumpedEventId := some 1,
          changeReason := "rs" }).2.audits.filter
      (fun a => a.eventId == 1 && decide (a.action = EventAuditAction.UPDATE))).length
      = 2 :=
  ⟨rfl, rfl⟩

end HVP
